import Mathlib

/-!
Verification development for the tool connection and dispatch core of the
bchat repository.  The Python sources (`mcp_manager.py`, `tool_registry.py`,
`tools.py`) are shallowly embedded as executable Lean definitions: pure
functions become Lean functions, stateful methods become explicit state
passing, fallible code returns `Except`, and outcomes of external awaits
(subprocess spawn, protocol handshake, tool listing, subprocess execution)
are supplied as explicit environment values.
-/

/-- Python exceptions that cross boundaries in the embedded code.
`str(e)` on a Python exception yields its message, modelled by `pyExcMsg`. -/
inductive PyExc where
  | valueError (msg : String)
  | runtimeError (msg : String)
  | attributeError (msg : String)
  | otherError (msg : String)
deriving Repr, DecidableEq

instance {ε α : Type} [DecidableEq ε] [DecidableEq α] : DecidableEq (Except ε α) := by
  intro a b
  cases a <;> cases b
  case error.error x y =>
    exact if h : x = y then isTrue (by rw [h]) else isFalse (fun hc => h (Except.error.inj hc))
  case error.ok x y => exact isFalse (fun hc => Except.noConfusion hc)
  case ok.error x y => exact isFalse (fun hc => Except.noConfusion hc)
  case ok.ok x y =>
    exact if h : x = y then isTrue (by rw [h]) else isFalse (fun hc => h (Except.ok.inj hc))

def pyExcMsg : PyExc → String
  | .valueError m => m
  | .runtimeError m => m
  | .attributeError m => m
  | .otherError m => m

/-! ## Namespacing (mcp_manager.py lines 214-220, 246-248, 486-506) -/

/-- `MCPConnection._namespace_tool_name`: `f"mcp_{self.config.name}_{tool_name}"`. -/
def namespace_tool_name (server tool : String) : String :=
  "mcp_" ++ server ++ "_" ++ tool

/-- Python `s.replace(pat, "", 1)` on character lists: remove the first
(leftmost) occurrence of `pat`, if any. -/
def removeFirst (pat : List Char) : List Char → List Char
  | [] => if pat = [] then [] else []
  | c :: rest =>
    if pat.isPrefixOf (c :: rest) then (c :: rest).drop pat.length
    else c :: removeFirst pat rest

/-- `MCPConnection._extract_original_tool_name`:
`namespaced_name.replace(f"mcp_{self.config.name}_", "", 1)`. -/
def extract_original_tool_name (server namespaced : String) : String :=
  ⟨removeFirst ("mcp_" ++ server ++ "_").data namespaced.data⟩

/-- One step of Python `str.split(sep)`: split at the first occurrence of
`sep`, returning the part before and the part after, or `none` when `sep`
does not occur. -/
def splitOnceAux (sep : Char) : List Char → Option (List Char × List Char)
  | [] => none
  | c :: rest =>
    if c = sep then some ([], rest)
    else (splitOnceAux sep rest).map (fun p => (c :: p.1, p.2))

/-- Python `s.split(sep, 2)`: at most two splits, yielding at most three
parts. -/
def pySplit2 (sep : Char) (l : List Char) : List (List Char) :=
  match splitOnceAux sep l with
  | none => [l]
  | some (a, r) =>
    match splitOnceAux sep r with
    | none => [a, r]
    | some (b, r2) => [a, b, r2]

/-- `MCPManager._extract_server_name`: requires the `mcp_` prefix and at
least three `_`-separated parts (via `split("_", 2)`), returning `parts[1]`;
otherwise raises `ValueError`. -/
def extract_server_name (tool_name : String) : Except PyExc String :=
  if "mcp_".data.isPrefixOf tool_name.data then
    match pySplit2 '_' tool_name.data with
    | [_, b, _] => .ok ⟨b⟩
    | _ => .error (.valueError ("Invalid MCP tool name format: " ++ tool_name))
  else
    .error (.valueError ("Invalid MCP tool name: " ++ tool_name))

/-! ## ToolRegistry (tool_registry.py lines 80-104) -/

/-- Model of `ToolRegistry` as used by `execute_tool`.  Local tools are
`Tool.execute` closures (total: `Tool.execute` catches every exception and
returns an `Error: ...` string).  `json_loads` models `json.loads` on the
arguments string, failing with the message of the raised exception; the
manager, when set, is `MCPManager.call_tool`, which may raise (`Except.error`). -/
structure PyToolRegistry (α : Type) where
  local_tools : List (String × (String → String))
  json_loads : String → Except String α
  mcp_manager : Option (String → α → Except PyExc String)

/-- `ToolRegistry.execute_tool(tool_name, arguments)`: local tools first;
then, when the name starts with `mcp_` and a manager is set, parse the JSON
arguments and delegate to `MCPManager.call_tool`, converting any raised
exception to an `Error: ...` string; otherwise return the unknown-tool
string.  The return type `String` (not `Except`) reflects that no exception
escapes this method. -/
def execute_tool {α : Type} (reg : PyToolRegistry α) (tool_name arguments : String) : String :=
  match List.lookup tool_name reg.local_tools with
  | some t => t arguments
  | none =>
    if "mcp_".data.isPrefixOf tool_name.data then
      match reg.mcp_manager with
      | some mgr =>
        match reg.json_loads arguments with
        | .error e => "Error: " ++ e
        | .ok args =>
          match mgr tool_name args with
          | .ok r => r
          | .error e => "Error: " ++ pyExcMsg e
      | none => "Error: Unknown tool '" ++ tool_name ++ "'"
    else "Error: Unknown tool '" ++ tool_name ++ "'"

/-! ## Lemmas about the namespacing helpers -/

theorem removeFirst_append (pat t : List Char) : removeFirst pat (pat ++ t) = t := by
  cases pat with
  | nil =>
    cases t with
    | nil => simp [removeFirst]
    | cons c r =>
      show removeFirst [] (c :: r) = c :: r
      simp [removeFirst, List.isPrefixOf]
  | cons p ps =>
    show removeFirst (p :: ps) ((p :: ps) ++ t) = t
    rw [List.cons_append, removeFirst]
    rw [if_pos (List.isPrefixOf_iff_prefix.mpr ⟨t, by simp⟩)]
    rw [← List.cons_append, List.drop_left]

theorem splitOnceAux_append (sep : Char) (a b : List Char) (h : sep ∉ a) :
    splitOnceAux sep (a ++ sep :: b) = some (a, b) := by
  induction a with
  | nil => simp [splitOnceAux]
  | cons c r ih =>
    have hc : ¬ (c = sep) := fun he => h (he ▸ List.mem_cons_self c r)
    have hr : sep ∉ r := fun hm => h (List.mem_cons_of_mem c hm)
    simp [splitOnceAux, hc, ih hr]

theorem data_namespace (S T : String) :
    (namespace_tool_name S T).data =
      ('m' :: 'c' :: 'p' :: '_' :: S.data) ++ '_' :: T.data := by
  show ("mcp_" ++ S ++ "_" ++ T).data = _
  rw [String.data_append, String.data_append, String.data_append]
  simp


/-- C2 (amended): for every server name `S` and tool name `T`, the
namespaced name is exactly `mcp_{S}_{T}` and stripping the prefix with
`_extract_original_tool_name` recovers exactly `T`; provided `S` contains
no underscore, `_extract_server_name` applied to the namespaced name
recovers exactly `S`. -/
theorem c2_namespace_roundtrip (S T : String) :
    namespace_tool_name S T = "mcp_" ++ S ++ "_" ++ T
    ∧ extract_original_tool_name S (namespace_tool_name S T) = T
    ∧ ('_' ∉ S.data → extract_server_name (namespace_tool_name S T) = .ok S) := by
  have hd := data_namespace S T
  refine ⟨rfl, ?_, ?_⟩
  · show (⟨removeFirst ("mcp_" ++ S ++ "_").data (namespace_tool_name S T).data⟩ : String) = T
    have hd2 : (namespace_tool_name S T).data = ("mcp_" ++ S ++ "_").data ++ T.data := by
      rw [hd, String.data_append, String.data_append]
      simp
    rw [hd2, removeFirst_append]
  · intro h
    have hpre : "mcp_".data.isPrefixOf (namespace_tool_name S T).data = true := by
      rw [hd]
      apply List.isPrefixOf_iff_prefix.mpr
      exact ⟨S.data ++ '_' :: T.data, by simp⟩
    have hsplit1 : splitOnceAux '_' (namespace_tool_name S T).data
        = some (['m', 'c', 'p'], S.data ++ '_' :: T.data) := by
      rw [hd]
      have he : ('m' :: 'c' :: 'p' :: '_' :: S.data) ++ '_' :: T.data
          = ['m', 'c', 'p'] ++ '_' :: (S.data ++ '_' :: T.data) := by simp
      rw [he]
      exact splitOnceAux_append _ _ _ (by decide)
    have hsplit2 : splitOnceAux '_' (S.data ++ '_' :: T.data) = some (S.data, T.data) :=
      splitOnceAux_append _ _ _ h
    have hps : pySplit2 '_' (namespace_tool_name S T).data
        = [['m', 'c', 'p'], S.data, T.data] := by
      simp only [pySplit2, hsplit1, hsplit2]
    rw [extract_server_name, if_pos hpre, hps]

/-- C2 counterexample: for the server name `a_b` (which contains an
underscore) and tool name `c`, `_extract_server_name` on the namespaced
name `mcp_a_b_c` returns `a`, not the original server name `a_b` — the
claimed round trip fails. -/
theorem c2_counterexample :
    extract_server_name (namespace_tool_name "a_b" "c") = .ok "a"
    ∧ ¬ extract_server_name (namespace_tool_name "a_b" "c") = .ok "a_b" := by
  have h1 : extract_server_name (namespace_tool_name "a_b" "c") = .ok "a" := by rfl
  refine ⟨h1, ?_⟩
  rw [h1]
  intro hcontra
  exact absurd (Except.ok.inj hcontra) (by decide)

/-- C2 witness: the round trip evaluated at server `github`, tool
`list_repos`, and the unconditional tool-name recovery at the underscored
server `a_b`. -/
theorem c2_witness :
    extract_original_tool_name "github" (namespace_tool_name "github" "list_repos")
      = "list_repos"
    ∧ extract_server_name (namespace_tool_name "github" "list_repos") = .ok "github"
    ∧ extract_original_tool_name "a_b" (namespace_tool_name "a_b" "c") = "c" := by
  have h := c2_namespace_roundtrip "github" "list_repos"
  exact ⟨h.2.1, h.2.2 (by decide), (c2_namespace_roundtrip "a_b" "c").2.1⟩

/-- C1: `ToolRegistry.execute_tool` is total (it returns a `String`, never
an exception): a known local tool is executed directly; a name with the
`mcp_` prefix, when a manager is set, has its arguments parsed as JSON and
is delegated to `MCPManager.call_tool`, any exception being converted to an
`Error: ...` string; every other name yields exactly
`Error: Unknown tool '{name}'`. -/
theorem c1_execute_tool_dispatch {α : Type} (reg : PyToolRegistry α) (name args : String) :
    (∀ t, List.lookup name reg.local_tools = some t →
      execute_tool reg name args = t args)
    ∧ (∀ mgr, List.lookup name reg.local_tools = none →
        reg.mcp_manager = some mgr →
        "mcp_".data.isPrefixOf name.data = true →
        execute_tool reg name args =
          (match reg.json_loads args with
           | .error e => "Error: " ++ e
           | .ok a =>
             match mgr name a with
             | .ok r => r
             | .error e => "Error: " ++ pyExcMsg e))
    ∧ (List.lookup name reg.local_tools = none →
        ("mcp_".data.isPrefixOf name.data = false ∨ reg.mcp_manager = none) →
        execute_tool reg name args = "Error: Unknown tool '" ++ name ++ "'") := by
  refine ⟨?_, ?_, ?_⟩
  · intro t ht
    rw [execute_tool, ht]
  · intro mgr hl hm hp
    rw [execute_tool, hl, if_pos hp, hm]
  · intro hl hcase
    rw [execute_tool, hl]
    rcases hcase with hp | hm
    · rw [if_neg (by rw [hp]; exact Bool.false_ne_true)]
    · by_cases hp : "mcp_".data.isPrefixOf name.data = true
      · rw [if_pos hp, hm]
      · rw [if_neg hp]

/-- A tiny concrete registry used to evaluate `execute_tool`: one local tool
and no MCP manager. -/
def c1WitnessReg : PyToolRegistry Unit :=
  ⟨[("calculator", fun _ => "4.0")], fun _ => .ok (), none⟩

/-- C1 witness: with a one-tool local registry and no manager, an unknown
name yields the unknown-tool error string, and the local tool is run
directly. -/
theorem c1_witness :
    execute_tool c1WitnessReg "nope" "x" = "Error: Unknown tool 'nope'"
    ∧ execute_tool c1WitnessReg "calculator" "x" = "4.0" := by
  constructor
  · exact (c1_execute_tool_dispatch c1WitnessReg "nope" "x").2.2 (by rfl) (Or.inr rfl)
  · exact (c1_execute_tool_dispatch c1WitnessReg "calculator" "x").1 _ (by rfl)

/-! ## Connection state machine (mcp_manager.py lines 67-286) -/

/-- A tool descriptor as returned by `session.list_tools()`. -/
structure ToolDesc where
  name : String
  description : String
deriving Repr, DecidableEq

/-- The mutable fields of `MCPConnection` relevant to its lifecycle, plus a
ghost counter `cleanup_calls` recording how many times `_cleanup` was
entered (used to state whether the cleanup protocol ran). -/
structure ConnState where
  connected : Bool
  tools : List (String × ToolDesc)
  session : Bool
  session_context : Bool
  client_context : Bool
  cleanup_calls : Nat
deriving Repr, DecidableEq

/-- `MCPConnection.__init__`: disconnected, no tools, no handles. -/
def ConnState.init : ConnState := ⟨false, [], false, false, false, 0⟩

/-- Outcome of one awaited external step (possibly under `asyncio.wait_for`). -/
inductive AwaitOutcome (α : Type) where
  | ok (a : α)
  | timedOut
  | raised (e : PyExc)
deriving Repr, DecidableEq

/-- Outcome of `self._client_context.__aexit__` under `asyncio.wait_for`:
it can return, be cancelled, time out, or raise. -/
inductive ClientExitOutcome where
  | ok
  | cancelled
  | timedOut
  | raised (e : PyExc)
deriving Repr, DecidableEq

/-- Environment of one `_cleanup` run: the outcome of the session-context
exit and of the client-context exit. -/
structure CleanupEnv where
  sessionExit : Option PyExc
  clientExit : ClientExitOutcome
deriving Repr, DecidableEq

/-- The `AttributeError` raised by `self._process` in `_cleanup`: the
attribute is referenced at mcp_manager.py line 185 but never assigned
anywhere in the class. -/
def attributeErrorProcess : PyExc :=
  .attributeError "'MCPConnection' object has no attribute '_process'"

/-- `MCPConnection._cleanup` (lines 158-194), modelled faithfully.  The
session-context step runs first; an exception from it is collected and its
`finally` clears the session fields.  The client-context step then runs
inside a `try` whose handlers swallow only cancellation and timeout — but
its `finally` block reads `self._process`, which is never assigned, so
whenever a client context is present the `finally` raises `AttributeError`
before the client fields are cleared, discarding any in-flight exception
and skipping the re-raise of collected session exceptions. -/
def cleanup (st : ConnState) (env : CleanupEnv) : Option PyExc × ConnState :=
  let st0 : ConnState := { st with cleanup_calls := st.cleanup_calls + 1 }
  let exceptions : List PyExc :=
    if st0.session_context then
      match env.sessionExit with
      | some e => [e]
      | none => []
    else []
  let st1 : ConnState :=
    if st0.session_context then { st0 with session_context := false, session := false }
    else st0
  if st1.client_context then
    (some attributeErrorProcess, st1)
  else
    match exceptions with
    | [] => (none, st1)
    | e :: _ => (some e, st1)

/-- Environment of one `connect` attempt: outcomes of the transport
establishment (`stdio_client(...).__aenter__` under a 30s `wait_for`), the
session enter, the handshake (`session.initialize()` under a 10s
`wait_for`), and the tool listing (`session.list_tools()`). -/
structure ConnectEnv where
  transport : AwaitOutcome Unit
  sessionEnter : Option PyExc
  handshake : AwaitOutcome Unit
  listTools : Except PyExc (List ToolDesc)
deriving Repr

/-- `MCPConnection._discover_tools` (lines 196-212): no-op without a
session; on success the tool map is rebuilt with namespaced keys; a raised
exception is logged and swallowed, leaving the tool map unchanged. -/
def discover_tools (server : String) (st : ConnState)
    (r : Except PyExc (List ToolDesc)) : ConnState :=
  if st.session then
    match r with
    | .ok ts => { st with tools := ts.map (fun t => (namespace_tool_name server t.name, t)) }
    | .error _ => st
  else st

/-- `MCPConnection.connect` (lines 81-133).  Result `.ok b` models
`return b`; `.error e` models `connect` itself raising `e`, which happens
exactly when `_cleanup` raises inside an exception handler.  The
transport-timeout branch (lines 107-109) returns `False` directly without
calling `_cleanup`; the handshake-timeout branch calls `_cleanup`, and if
that raises, the outer `except` catches it and calls `_cleanup` a second
time (environment `c2`). -/
def connect (server : String) (st : ConnState) (env : ConnectEnv)
    (c1 c2 : CleanupEnv) : Except PyExc Bool × ConnState :=
  if st.connected then (.ok true, st)
  else
    let st0 : ConnState := { st with client_context := true }
    match env.transport with
    | .timedOut => (.ok false, st0)
    | .raised _ =>
      match cleanup st0 c1 with
      | (none, st') => (.ok false, st')
      | (some ce, st') => (.error ce, st')
    | .ok _ =>
      let st1 : ConnState := { st0 with session_context := true }
      match env.sessionEnter with
      | some _ =>
        (match cleanup st1 c1 with
         | (none, st') => (.ok false, st')
         | (some ce, st') => (.error ce, st'))
      | none =>
        let st2 : ConnState := { st1 with session := true }
        match env.handshake with
        | .timedOut =>
          (match cleanup st2 c1 with
           | (none, st') => (.ok false, st')
           | (some _, st') =>
             match cleanup st' c2 with
             | (none, st'') => (.ok false, st'')
             | (some ce2, st'') => (.error ce2, st''))
        | .raised _ =>
          (match cleanup st2 c1 with
           | (none, st') => (.ok false, st')
           | (some ce, st') => (.error ce, st'))
        | .ok _ =>
          let st3 := discover_tools server st2 env.listTools
          (.ok true, { st3 with connected := true })

/-- `MCPConnection.disconnect` (lines 135-156): no-op success when not
connected; otherwise run `_cleanup`, and on success clear the connected
flag and the tool map; an exception from `_cleanup` is caught and `False`
is returned with the flag and tool map untouched. -/
def disconnect (st : ConnState) (c : CleanupEnv) : Bool × ConnState :=
  if st.connected then
    match cleanup st c with
    | (none, st') => (true, { st' with connected := false, tools := [] })
    | (some _, st') => (false, st')
  else (true, st)

theorem cleanup_preserves (st : ConnState) (c : CleanupEnv) :
    ((cleanup st c).2.connected = st.connected)
    ∧ ((cleanup st c).2.tools = st.tools)
    ∧ ((cleanup st c).2.client_context = st.client_context)
    ∧ ((cleanup st c).2.cleanup_calls = st.cleanup_calls + 1) := by
  unfold cleanup
  by_cases hs : st.session_context <;> by_cases hcl : st.client_context <;>
    cases hse : c.sessionExit <;> simp [hs, hcl, hse]

/-- C4: the cleanup protocol is broken by an undefined attribute.  With a
live session context and a live client context and both exit steps
succeeding, `_cleanup` raises `AttributeError` (its `finally` block reads
`self._process`, which no code ever assigns) instead of completing, and the
client-context field is not cleared; moreover, when the session step raises
one exception and the client step raises another, the surfaced error is
still the `AttributeError`, so the collect-both-then-surface-first protocol
never runs. -/
theorem c4_cleanup_attribute_error :
    (cleanup ⟨true, [], true, true, true, 0⟩ ⟨none, .ok⟩).1 = some attributeErrorProcess
    ∧ (cleanup ⟨true, [], true, true, true, 0⟩ ⟨none, .ok⟩).2.client_context = true
    ∧ (cleanup ⟨true, [], true, true, true, 0⟩
        ⟨some (.valueError "session close failed"),
         .raised (.valueError "transport close failed")⟩).1
      = some attributeErrorProcess := by
  refine ⟨rfl, rfl, rfl⟩

/-! ### Branch characterizations of `connect` -/

theorem connect_already_connected (server : String) (st : ConnState) (env : ConnectEnv)
    (c1 c2 : CleanupEnv) (hc : st.connected = true) :
    connect server st env c1 c2 = (.ok true, st) := by
  rw [connect, if_pos hc]

theorem connect_transport_timeout (server : String) (st : ConnState) (env : ConnectEnv)
    (c1 c2 : CleanupEnv) (hc : st.connected = false) (htr : env.transport = .timedOut) :
    connect server st env c1 c2 = (.ok false, { st with client_context := true }) := by
  rw [connect, if_neg (by simp [hc]), htr]

theorem connect_transport_raised (server : String) (st : ConnState) (env : ConnectEnv)
    (c1 c2 : CleanupEnv) (e : PyExc) (hc : st.connected = false)
    (htr : env.transport = .raised e) :
    connect server st env c1 c2 =
      (match cleanup { st with client_context := true } c1 with
       | (none, st') => (.ok false, st')
       | (some ce, st') => (.error ce, st')) := by
  rw [connect, if_neg (by simp [hc]), htr]

theorem connect_session_enter_raised (server : String) (st : ConnState) (env : ConnectEnv)
    (c1 c2 : CleanupEnv) (e : PyExc) (hc : st.connected = false)
    (htr : env.transport = .ok ()) (hse : env.sessionEnter = some e) :
    connect server st env c1 c2 =
      (match cleanup { st with client_context := true, session_context := true } c1 with
       | (none, st') => (.ok false, st')
       | (some ce, st') => (.error ce, st')) := by
  rw [connect, if_neg (by simp [hc]), htr, hse]

theorem connect_handshake_timeout (server : String) (st : ConnState) (env : ConnectEnv)
    (c1 c2 : CleanupEnv) (hc : st.connected = false) (htr : env.transport = .ok ())
    (hse : env.sessionEnter = none) (hh : env.handshake = .timedOut) :
    connect server st env c1 c2 =
      (match cleanup { st with client_context := true, session_context := true, session := true } c1 with
       | (none, st') => (.ok false, st')
       | (some _, st') =>
         match cleanup st' c2 with
         | (none, st'') => (.ok false, st'')
         | (some ce2, st'') => (.error ce2, st'')) := by
  rw [connect, if_neg (by simp [hc]), htr, hse, hh]

theorem connect_handshake_raised (server : String) (st : ConnState) (env : ConnectEnv)
    (c1 c2 : CleanupEnv) (e : PyExc) (hc : st.connected = false) (htr : env.transport = .ok ())
    (hse : env.sessionEnter = none) (hh : env.handshake = .raised e) :
    connect server st env c1 c2 =
      (match cleanup { st with client_context := true, session_context := true, session := true } c1 with
       | (none, st') => (.ok false, st')
       | (some ce, st') => (.error ce, st')) := by
  rw [connect, if_neg (by simp [hc]), htr, hse, hh]

theorem connect_success (server : String) (st : ConnState) (env : ConnectEnv)
    (c1 c2 : CleanupEnv) (hc : st.connected = false) (htr : env.transport = .ok ())
    (hse : env.sessionEnter = none) (hh : env.handshake = .ok ()) :
    connect server st env c1 c2 =
      (.ok true,
       { discover_tools server
           { st with client_context := true, session_context := true, session := true }
           env.listTools with connected := true }) := by
  rw [connect, if_neg (by simp [hc]), htr, hse, hh]

/-- C3 counterexample: the claim states that every failing `connect`
attempt runs the cleanup protocol.  From a fresh connection, a
transport-establishment timeout (mcp_manager.py lines 107-109) makes
`connect` return failure with `_cleanup` never invoked — the ghost
cleanup counter is still zero — refuting the claim. -/
theorem c3_counterexample :
    ¬ ∀ (server : String) (st : ConnState) (env : ConnectEnv) (c1 c2 : CleanupEnv),
        st.connected = false → (connect server st env c1 c2).1 ≠ .ok true →
        st.cleanup_calls < (connect server st env c1 c2).2.cleanup_calls := by
  intro hclaim
  have heq := connect_transport_timeout "srv" ConnState.init ⟨.timedOut, none, .ok (), .ok []⟩
    ⟨none, .ok⟩ ⟨none, .ok⟩ rfl rfl
  have h := hclaim "srv" ConnState.init ⟨.timedOut, none, .ok (), .ok []⟩ ⟨none, .ok⟩ ⟨none, .ok⟩
    rfl (by rw [heq]; intro hco; exact Bool.noConfusion (Except.ok.inj hco))
  rw [heq] at h
  exact Nat.lt_irrefl 0 h

/-- C3 (amended): `connect()` is a no-op returning success when already
connected.  On a transport-establishment timeout it returns failure
without running the cleanup protocol (the connection stays disconnected).
On every other failure (transport raised, session enter raised, handshake
timeout or raised) the cleanup protocol runs, and when that cleanup run
does not itself raise, `connect` returns failure rather than raising.  The
connected flag is false after every such failure, so a future retry is
possible. -/
theorem c3_connect_failure_behaviour (server : String) (st : ConnState)
    (env : ConnectEnv) (c1 c2 : CleanupEnv) :
    (st.connected = true → connect server st env c1 c2 = (.ok true, st))
    ∧ (st.connected = false → env.transport = .timedOut →
        connect server st env c1 c2 = (.ok false, { st with client_context := true })
        ∧ (connect server st env c1 c2).2.cleanup_calls = st.cleanup_calls
        ∧ (connect server st env c1 c2).2.connected = false)
    ∧ (∀ e, st.connected = false → env.transport = .raised e →
        st.cleanup_calls < (connect server st env c1 c2).2.cleanup_calls
        ∧ ((cleanup { st with client_context := true } c1).1 = none →
            (connect server st env c1 c2).1 = .ok false)
        ∧ (connect server st env c1 c2).2.connected = false)
    ∧ (∀ e, st.connected = false → env.transport = .ok () → env.sessionEnter = some e →
        st.cleanup_calls < (connect server st env c1 c2).2.cleanup_calls
        ∧ ((cleanup { st with client_context := true, session_context := true } c1).1 = none →
            (connect server st env c1 c2).1 = .ok false)
        ∧ (connect server st env c1 c2).2.connected = false)
    ∧ (st.connected = false → env.transport = .ok () → env.sessionEnter = none →
        (env.handshake = .timedOut ∨ ∃ e, env.handshake = .raised e) →
        st.cleanup_calls < (connect server st env c1 c2).2.cleanup_calls
        ∧ ((cleanup { st with client_context := true, session_context := true, session := true } c1).1 = none →
            (connect server st env c1 c2).1 = .ok false)
        ∧ (connect server st env c1 c2).2.connected = false) := by
  refine ⟨fun hc => connect_already_connected server st env c1 c2 hc, ?_, ?_, ?_, ?_⟩
  · intro hc htr
    have heq := connect_transport_timeout server st env c1 c2 hc htr
    exact ⟨heq, by rw [heq], by rw [heq]; exact hc⟩
  · intro e hc htr
    have heq := connect_transport_raised server st env c1 c2 e hc htr
    have hp := cleanup_preserves { st with client_context := true } c1
    rcases hcl : cleanup { st with client_context := true } c1 with ⟨oe, st'⟩
    rw [hcl] at hp
    have hcnt : st'.cleanup_calls = st.cleanup_calls + 1 := hp.2.2.2
    have hcon : st'.connected = st.connected := hp.1
    cases oe with
    | none =>
      have hres : connect server st env c1 c2 = (.ok false, st') := by rw [heq, hcl]
      refine ⟨?_, fun _ => by rw [hres], ?_⟩
      · rw [hres]
        show st.cleanup_calls < st'.cleanup_calls
        omega
      · rw [hres]
        show st'.connected = false
        rw [hcon]; exact hc
    | some ce =>
      have hres : connect server st env c1 c2 = (.error ce, st') := by rw [heq, hcl]
      refine ⟨?_, ?_, ?_⟩
      · rw [hres]
        show st.cleanup_calls < st'.cleanup_calls
        omega
      · intro hnone
        exact absurd hnone (by simp)
      · rw [hres]
        show st'.connected = false
        rw [hcon]; exact hc
  · intro e hc htr hse
    have heq := connect_session_enter_raised server st env c1 c2 e hc htr hse
    have hp := cleanup_preserves { st with client_context := true, session_context := true } c1
    rcases hcl : cleanup { st with client_context := true, session_context := true } c1
      with ⟨oe, st'⟩
    rw [hcl] at hp
    have hcnt : st'.cleanup_calls = st.cleanup_calls + 1 := hp.2.2.2
    have hcon : st'.connected = st.connected := hp.1
    cases oe with
    | none =>
      have hres : connect server st env c1 c2 = (.ok false, st') := by rw [heq, hcl]
      refine ⟨?_, fun _ => by rw [hres], ?_⟩
      · rw [hres]
        show st.cleanup_calls < st'.cleanup_calls
        omega
      · rw [hres]
        show st'.connected = false
        rw [hcon]; exact hc
    | some ce =>
      have hres : connect server st env c1 c2 = (.error ce, st') := by rw [heq, hcl]
      refine ⟨?_, ?_, ?_⟩
      · rw [hres]
        show st.cleanup_calls < st'.cleanup_calls
        omega
      · intro hnone
        exact absurd hnone (by simp)
      · rw [hres]
        show st'.connected = false
        rw [hcon]; exact hc
  · intro hc htr hse hh
    have hp := cleanup_preserves { st with client_context := true, session_context := true, session := true } c1
    rcases hcl : cleanup { st with client_context := true, session_context := true, session := true } c1
      with ⟨oe, st'⟩
    rw [hcl] at hp
    have hcnt : st'.cleanup_calls = st.cleanup_calls + 1 := hp.2.2.2
    have hcon : st'.connected = st.connected := hp.1
    rcases hh with hh | ⟨e, hh⟩
    · have heq := connect_handshake_timeout server st env c1 c2 hc htr hse hh
      cases oe with
      | none =>
        have hres : connect server st env c1 c2 = (.ok false, st') := by rw [heq, hcl]
        refine ⟨?_, fun _ => by rw [hres], ?_⟩
        · rw [hres]
          show st.cleanup_calls < st'.cleanup_calls
          omega
        · rw [hres]
          show st'.connected = false
          rw [hcon]; exact hc
      | some ce =>
        have hres1 : connect server st env c1 c2 =
            (match cleanup st' c2 with
             | (none, st'') => (.ok false, st'')
             | (some ce2, st'') => (.error ce2, st'')) := by
          rw [heq, hcl]
        have hp2 := cleanup_preserves st' c2
        rcases hcl2 : cleanup st' c2 with ⟨oe2, st''⟩
        rw [hcl2] at hp2
        have hcnt2 : st''.cleanup_calls = st'.cleanup_calls + 1 := hp2.2.2.2
        have hcon2 : st''.connected = st'.connected := hp2.1
        cases oe2 with
        | none =>
          have hres : connect server st env c1 c2 = (.ok false, st'') := by rw [hres1, hcl2]
          refine ⟨?_, ?_, ?_⟩
          · rw [hres]
            show st.cleanup_calls < st''.cleanup_calls
            omega
          · intro hnone
            exact absurd hnone (by simp)
          · rw [hres]
            show st''.connected = false
            rw [hcon2, hcon]; exact hc
        | some ce2 =>
          have hres : connect server st env c1 c2 = (.error ce2, st'') := by rw [hres1, hcl2]
          refine ⟨?_, ?_, ?_⟩
          · rw [hres]
            show st.cleanup_calls < st''.cleanup_calls
            omega
          · intro hnone
            exact absurd hnone (by simp)
          · rw [hres]
            show st''.connected = false
            rw [hcon2, hcon]; exact hc
    · have heq := connect_handshake_raised server st env c1 c2 e hc htr hse hh
      cases oe with
      | none =>
        have hres : connect server st env c1 c2 = (.ok false, st') := by rw [heq, hcl]
        refine ⟨?_, fun _ => by rw [hres], ?_⟩
        · rw [hres]
          show st.cleanup_calls < st'.cleanup_calls
          omega
        · rw [hres]
          show st'.connected = false
          rw [hcon]; exact hc
      | some ce =>
        have hres : connect server st env c1 c2 = (.error ce, st') := by rw [heq, hcl]
        refine ⟨?_, ?_, ?_⟩
        · rw [hres]
          show st.cleanup_calls < st'.cleanup_calls
          omega
        · intro hnone
          exact absurd hnone (by simp)
        · rw [hres]
          show st'.connected = false
          rw [hcon]; exact hc

/-- C3 witness: the no-op case, the transport-timeout case (no cleanup
run) and the handshake-timeout case (cleanup runs) evaluated concretely. -/
theorem c3_witness :
    connect "srv" ⟨true, [], true, true, true, 0⟩ ⟨.timedOut, none, .ok (), .ok []⟩
      ⟨none, .ok⟩ ⟨none, .ok⟩ = (.ok true, ⟨true, [], true, true, true, 0⟩)
    ∧ connect "srv" ConnState.init ⟨.timedOut, none, .ok (), .ok []⟩ ⟨none, .ok⟩ ⟨none, .ok⟩
      = (.ok false, { ConnState.init with client_context := true })
    ∧ 0 < (connect "srv" ConnState.init ⟨.ok (), none, .timedOut, .ok []⟩
        ⟨none, .ok⟩ ⟨none, .ok⟩).2.cleanup_calls := by
  refine ⟨?_, ?_, ?_⟩
  · exact (c3_connect_failure_behaviour "srv" ⟨true, [], true, true, true, 0⟩
      ⟨.timedOut, none, .ok (), .ok []⟩ ⟨none, .ok⟩ ⟨none, .ok⟩).1 rfl
  · exact ((c3_connect_failure_behaviour "srv" ConnState.init
      ⟨.timedOut, none, .ok (), .ok []⟩ ⟨none, .ok⟩ ⟨none, .ok⟩).2.1 rfl rfl).1
  · exact ((c3_connect_failure_behaviour "srv" ConnState.init
      ⟨.ok (), none, .timedOut, .ok []⟩ ⟨none, .ok⟩ ⟨none, .ok⟩).2.2.2.2 rfl rfl rfl
      (Or.inl rfl)).1

/-! ### Reachable connection states and the tool-map invariant -/

/-- The public operations of one `MCPConnection`, each with the outcomes of
its external awaits. -/
inductive ConnOp where
  | doConnect (server : String) (env : ConnectEnv) (c1 c2 : CleanupEnv)
  | doDisconnect (c : CleanupEnv)

def connStep (st : ConnState) : ConnOp → ConnState
  | .doConnect server env c1 c2 => (connect server st env c1 c2).2
  | .doDisconnect c => (disconnect st c).2

/-- The connection state after a sequence of operations, starting from the
freshly constructed state (operations listed most recent first). -/
def connRun : List ConnOp → ConnState
  | [] => ConnState.init
  | op :: ops => connStep (connRun ops) op

theorem connect_post (server : String) (st : ConnState) (env : ConnectEnv)
    (c1 c2 : CleanupEnv) :
    (connect server st env c1 c2).2.connected = true
    ∨ ((connect server st env c1 c2).2.tools = st.tools
        ∧ (connect server st env c1 c2).2.connected = st.connected) := by
  by_cases hc : st.connected = true
  · rw [connect_already_connected server st env c1 c2 hc]
    exact Or.inl hc
  · have hc' : st.connected = false := by
      cases hb : st.connected
      · rfl
      · exact absurd hb hc
    cases htr : env.transport with
    | timedOut =>
      rw [connect_transport_timeout server st env c1 c2 hc' htr]
      exact Or.inr ⟨rfl, rfl⟩
    | raised e =>
      have heq := connect_transport_raised server st env c1 c2 e hc' htr
      have hp := cleanup_preserves { st with client_context := true } c1
      rcases hcl : cleanup { st with client_context := true } c1 with ⟨oe, st'⟩
      rw [hcl] at hp
      cases oe with
      | none =>
        have hres : (connect server st env c1 c2).2 = st' := by rw [heq, hcl]
        rw [hres]
        exact Or.inr ⟨hp.2.1, hp.1⟩
      | some ce =>
        have hres : (connect server st env c1 c2).2 = st' := by rw [heq, hcl]
        rw [hres]
        exact Or.inr ⟨hp.2.1, hp.1⟩
    | ok a =>
      cases a
      cases hse : env.sessionEnter with
      | some e =>
        have heq := connect_session_enter_raised server st env c1 c2 e hc' htr hse
        have hp := cleanup_preserves { st with client_context := true, session_context := true } c1
        rcases hcl : cleanup { st with client_context := true, session_context := true } c1
          with ⟨oe, st'⟩
        rw [hcl] at hp
        cases oe with
        | none =>
          have hres : (connect server st env c1 c2).2 = st' := by rw [heq, hcl]
          rw [hres]
          exact Or.inr ⟨hp.2.1, hp.1⟩
        | some ce =>
          have hres : (connect server st env c1 c2).2 = st' := by rw [heq, hcl]
          rw [hres]
          exact Or.inr ⟨hp.2.1, hp.1⟩
      | none =>
        cases hh : env.handshake with
        | ok a =>
          cases a
          have heq := connect_success server st env c1 c2 hc' htr hse hh
          rw [heq]
          exact Or.inl rfl
        | timedOut =>
          have heq := connect_handshake_timeout server st env c1 c2 hc' htr hse hh
          have hp := cleanup_preserves { st with client_context := true, session_context := true, session := true } c1
          rcases hcl : cleanup { st with client_context := true, session_context := true, session := true } c1
            with ⟨oe, st'⟩
          rw [hcl] at hp
          cases oe with
          | none =>
            have hres : (connect server st env c1 c2).2 = st' := by rw [heq, hcl]
            rw [hres]
            exact Or.inr ⟨hp.2.1, hp.1⟩
          | some ce =>
            have hres1 : (connect server st env c1 c2).2 =
                (match cleanup st' c2 with
                 | (none, st'') => ((.ok false : Except PyExc Bool), st'')
                 | (some ce2, st'') => (.error ce2, st'')).2 := by rw [heq, hcl]
            have hp2 := cleanup_preserves st' c2
            rcases hcl2 : cleanup st' c2 with ⟨oe2, st''⟩
            rw [hcl2] at hp2
            cases oe2 with
            | none =>
              have hres : (connect server st env c1 c2).2 = st'' := by rw [hres1, hcl2]
              rw [hres]
              exact Or.inr ⟨hp2.2.1.trans hp.2.1, hp2.1.trans hp.1⟩
            | some ce2 =>
              have hres : (connect server st env c1 c2).2 = st'' := by rw [hres1, hcl2]
              rw [hres]
              exact Or.inr ⟨hp2.2.1.trans hp.2.1, hp2.1.trans hp.1⟩
        | raised e =>
          have heq := connect_handshake_raised server st env c1 c2 e hc' htr hse hh
          have hp := cleanup_preserves { st with client_context := true, session_context := true, session := true } c1
          rcases hcl : cleanup { st with client_context := true, session_context := true, session := true } c1
            with ⟨oe, st'⟩
          rw [hcl] at hp
          cases oe with
          | none =>
            have hres : (connect server st env c1 c2).2 = st' := by rw [heq, hcl]
            rw [hres]
            exact Or.inr ⟨hp.2.1, hp.1⟩
          | some ce =>
            have hres : (connect server st env c1 c2).2 = st' := by rw [heq, hcl]
            rw [hres]
            exact Or.inr ⟨hp.2.1, hp.1⟩

theorem disconnect_post (st : ConnState) (c : CleanupEnv) :
    (disconnect st c).2.tools = []
    ∨ ((disconnect st c).2.tools = st.tools
        ∧ (disconnect st c).2.connected = st.connected) := by
  by_cases hc : st.connected = true
  · have hp := cleanup_preserves st c
    rcases hcl : cleanup st c with ⟨oe, st'⟩
    rw [hcl] at hp
    cases oe with
    | none =>
      have hres : (disconnect st c).2 = { st' with connected := false, tools := [] } := by
        rw [disconnect, if_pos hc, hcl]
      rw [hres]
      exact Or.inl rfl
    | some ce =>
      have hres : (disconnect st c).2 = st' := by
        rw [disconnect, if_pos hc, hcl]
      rw [hres]
      exact Or.inr ⟨hp.2.1, hp.1⟩
  · have hres : disconnect st c = (true, st) := by
      rw [disconnect, if_neg hc]
    rw [hres]
    exact Or.inr ⟨rfl, rfl⟩

theorem connRun_invariant (ops : List ConnOp) :
    (connRun ops).tools ≠ [] → (connRun ops).connected = true := by
  induction ops with
  | nil => intro hne; exact absurd rfl hne
  | cons op rest ih =>
    show (connStep (connRun rest) op).tools ≠ [] → _
    cases op with
    | doConnect server env c1 c2 =>
      show (connect server (connRun rest) env c1 c2).2.tools ≠ [] →
        (connect server (connRun rest) env c1 c2).2.connected = true
      rcases connect_post server (connRun rest) env c1 c2 with hpost | ⟨ht, hcon⟩
      · intro _; exact hpost
      · rw [ht, hcon]
        exact ih
    | doDisconnect c =>
      show (disconnect (connRun rest) c).2.tools ≠ [] →
        (disconnect (connRun rest) c).2.connected = true
      rcases disconnect_post (connRun rest) c with hpost | ⟨ht, hcon⟩
      · rw [hpost]
        intro hne
        exact absurd rfl hne
      · rw [ht, hcon]
        exact ih

/-- C6: the tool map of a connection is non-empty only while the connected
flag is true, over every reachable state; the map is empty right after
construction; a disconnect that reports success leaves it empty; and a
connect whose discovery step raises still succeeds while leaving the tool
map empty. -/
theorem c6_tools_invariant :
    (ConnState.init.tools = [] ∧ ConnState.init.connected = false)
    ∧ (∀ ops : List ConnOp, (connRun ops).tools ≠ [] → (connRun ops).connected = true)
    ∧ (∀ (ops : List ConnOp) (c : CleanupEnv), (disconnect (connRun ops) c).1 = true →
        (disconnect (connRun ops) c).2.tools = [])
    ∧ (∀ (ops : List ConnOp) (server : String) (env : ConnectEnv) (c1 c2 : CleanupEnv)
        (e : PyExc),
        (connRun ops).connected = false → env.transport = .ok () →
        env.sessionEnter = none → env.handshake = .ok () → env.listTools = .error e →
        (connect server (connRun ops) env c1 c2).1 = .ok true
        ∧ (connect server (connRun ops) env c1 c2).2.tools = []
        ∧ (connect server (connRun ops) env c1 c2).2.connected = true) := by
  refine ⟨⟨rfl, rfl⟩, connRun_invariant, ?_, ?_⟩
  · intro ops c hsucc
    have hinv := connRun_invariant ops
    by_cases hc : (connRun ops).connected = true
    · have hp := cleanup_preserves (connRun ops) c
      rcases hcl : cleanup (connRun ops) c with ⟨oe, st'⟩
      rw [hcl] at hp
      cases oe with
      | none =>
        have hres : (disconnect (connRun ops) c).2
            = { st' with connected := false, tools := [] } := by
          rw [disconnect, if_pos hc, hcl]
        rw [hres]
      | some ce =>
        have hres : (disconnect (connRun ops) c).1 = false := by
          rw [disconnect, if_pos hc, hcl]
        rw [hres] at hsucc
        exact absurd hsucc (by simp)
    · have hres : disconnect (connRun ops) c = (true, connRun ops) := by
        rw [disconnect, if_neg hc]
      rw [hres]
      by_contra hne
      exact hc (hinv hne)
  · intro ops server env c1 c2 e hc htr hse hh hlt
    have hempty : (connRun ops).tools = [] := by
      by_contra hne
      rw [connRun_invariant ops hne] at hc
      exact Bool.noConfusion hc
    have heq := connect_success server (connRun ops) env c1 c2 hc htr hse hh
    rw [heq]
    refine ⟨rfl, ?_, rfl⟩
    show (discover_tools server
        { connRun ops with client_context := true, session_context := true, session := true }
        env.listTools).tools = []
    rw [discover_tools.eq_def, hlt]
    simpa using hempty

/-- C6 witness: the invariant conjuncts evaluated at the freshly
constructed state, including a connect whose tool listing raises. -/
theorem c6_witness :
    (disconnect (connRun []) ⟨none, .ok⟩).1 = true
    ∧ (disconnect (connRun []) ⟨none, .ok⟩).2.tools = []
    ∧ (connect "srv" (connRun []) ⟨.ok (), none, .ok (), .error (.valueError "boom")⟩
        ⟨none, .ok⟩ ⟨none, .ok⟩).1 = .ok true
    ∧ (connect "srv" (connRun []) ⟨.ok (), none, .ok (), .error (.valueError "boom")⟩
        ⟨none, .ok⟩ ⟨none, .ok⟩).2.tools = [] := by
  have h := c6_tools_invariant
  refine ⟨rfl, h.2.2.1 [] ⟨none, .ok⟩ rfl, ?_, ?_⟩
  · exact (h.2.2.2 [] "srv" ⟨.ok (), none, .ok (), .error (.valueError "boom")⟩
      ⟨none, .ok⟩ ⟨none, .ok⟩ (.valueError "boom") rfl rfl rfl rfl rfl).1
  · exact (h.2.2.2 [] "srv" ⟨.ok (), none, .ok (), .error (.valueError "boom")⟩
      ⟨none, .ok⟩ ⟨none, .ok⟩ (.valueError "boom") rfl rfl rfl rfl rfl).2.1

/-! ## Manager disconnect (mcp_manager.py lines 376-394) -/

/-- `MCPManager.disconnect_server`: success (no-op) when the name is not
registered; otherwise run the connection's `disconnect`, and remove the
registration only when it reports success — a failed disconnect leaves the
(mutated) connection registered. -/
def disconnect_server (conns : List (String × ConnState)) (name : String)
    (c : CleanupEnv) : Bool × List (String × ConnState) :=
  match List.lookup name conns with
  | none => (true, conns)
  | some st =>
    match disconnect st c with
    | (true, _) => (true, conns.filter (fun p => !(p.1 == name)))
    | (false, st') => (false, conns.map (fun p => if p.1 = name then (p.1, st') else p))

theorem lookup_cons_eq {β : Type} (k : String) (b : β) (l : List (String × β)) :
    List.lookup k ((k, b) :: l) = some b := by
  simp [List.lookup]

theorem lookup_cons_ne {β : Type} (a k : String) (b : β) (l : List (String × β))
    (h : ¬ a = k) : List.lookup a ((k, b) :: l) = List.lookup a l := by
  simp [List.lookup, beq_eq_false_iff_ne.mpr h]

theorem lookup_update_name {β : Type} (name : String) (v : β)
    (conns : List (String × β)) (st0 : β) (h : List.lookup name conns = some st0) :
    List.lookup name (conns.map (fun p => if p.1 = name then (p.1, v) else p)) = some v := by
  induction conns with
  | nil => simp [List.lookup] at h
  | cons p rest ih =>
    rcases p with ⟨k, b⟩
    by_cases he : k = name
    · subst he
      rw [List.map_cons]
      show List.lookup k ((if k = k then ((k : String), v) else (k, b)) ::
        List.map (fun p => if p.1 = k then (p.1, v) else p) rest) = some v
      rw [if_pos rfl, lookup_cons_eq]
    · have hne : ¬ (name = k) := fun hh => he hh.symm
      have h' : List.lookup name rest = some st0 := by
        rw [lookup_cons_ne name k b rest hne] at h
        exact h
      rw [List.map_cons]
      show List.lookup name ((if k = name then ((k : String), v) else (k, b)) ::
        List.map (fun p => if p.1 = name then (p.1, v) else p) rest) = some v
      rw [if_neg he, lookup_cons_ne name k b _ hne]
      exact ih h'

/-- C10: when `_cleanup` raises during `disconnect()`, the exception is
caught and `False` is returned, the connected flag stays true and the tool
map is left uncleared; `MCPManager.disconnect_server` then reports failure
and leaves the connection registered in its connections map. -/
theorem c10_disconnect_cleanup_raises (st : ConnState) (c : CleanupEnv) (e : PyExc)
    (hconn : st.connected = true) (hc : (cleanup st c).1 = some e) :
    (disconnect st c).1 = false
    ∧ (disconnect st c).2.connected = true
    ∧ (disconnect st c).2.tools = st.tools
    ∧ (∀ (conns : List (String × ConnState)) (name : String),
        List.lookup name conns = some st →
        (disconnect_server conns name c).1 = false
        ∧ List.lookup name (disconnect_server conns name c).2
          = some (disconnect st c).2) := by
  have hp := cleanup_preserves st c
  rcases hcl : cleanup st c with ⟨oe, st'⟩
  rw [hcl] at hp hc
  have hoe : oe = some e := hc
  subst hoe
  have hres : disconnect st c = (false, st') := by
    rw [disconnect, if_pos hconn, hcl]
  refine ⟨by rw [hres], by rw [hres]; rw [show (false, st').2 = st' from rfl, hp.1]; exact hconn,
    by rw [hres]; exact hp.2.1, ?_⟩
  intro conns name hlook
  have hds1 : disconnect_server conns name c
      = (match disconnect st c with
         | (true, _) => (true, conns.filter (fun p => !(p.1 == name)))
         | (false, st2) => (false, conns.map (fun p => if p.1 = name then (p.1, st2) else p))) := by
    rw [disconnect_server.eq_def, hlook]
  have hds : disconnect_server conns name c
      = (false, conns.map (fun p => if p.1 = name then (p.1, st') else p)) := by
    rw [hds1, hres]
  rw [hds, hres]
  exact ⟨rfl, lookup_update_name name st' conns st hlook⟩

/-- C10 witness: a connected connection with one discovered tool whose
cleanup raises the `_process` `AttributeError`; disconnect reports failure,
keeps the flag and tools, and the manager keeps the registration. -/
theorem c10_witness :
    (disconnect ⟨true, [("mcp_s_t", ⟨"t", "d"⟩)], true, true, true, 0⟩ ⟨none, .ok⟩).1 = false
    ∧ (disconnect ⟨true, [("mcp_s_t", ⟨"t", "d"⟩)], true, true, true, 0⟩ ⟨none, .ok⟩).2.connected
      = true
    ∧ (disconnect_server [("s", ⟨true, [("mcp_s_t", ⟨"t", "d"⟩)], true, true, true, 0⟩)]
        "s" ⟨none, .ok⟩).1 = false
    ∧ List.lookup "s" (disconnect_server
        [("s", ⟨true, [("mcp_s_t", ⟨"t", "d"⟩)], true, true, true, 0⟩)] "s" ⟨none, .ok⟩).2
      = some (disconnect ⟨true, [("mcp_s_t", ⟨"t", "d"⟩)], true, true, true, 0⟩ ⟨none, .ok⟩).2 := by
  have h := c10_disconnect_cleanup_raises
    ⟨true, [("mcp_s_t", ⟨"t", "d"⟩)], true, true, true, 0⟩ ⟨none, .ok⟩
    attributeErrorProcess rfl rfl
  have hm := h.2.2.2 [("s", ⟨true, [("mcp_s_t", ⟨"t", "d"⟩)], true, true, true, 0⟩)] "s" rfl
  exact ⟨h.1, h.2.1, hm.1, hm.2⟩

/-! ## Tool dispatch (mcp_manager.py lines 250-286 and 508-525) -/

/-- One item of a tool-call result's `content` list: an item with a `text`
attribute, an item with only a `type` attribute, or an item with neither
(skipped by the rendering loop). -/
inductive ContentItem where
  | text (s : String)
  | typed (ty : String)
  | other
deriving Repr, DecidableEq

/-- A result of `session.call_tool`: its `content` list and its `str(...)`
rendering used as fallback. -/
structure CallResult where
  content : List ContentItem
  asStr : String
deriving Repr, DecidableEq

/-- The rendering of a call result in `MCPConnection.call_tool` lines
273-282: textual parts verbatim, typed parts as `[{type}]`, joined by
newlines; falls back to `str(result)` when there is no content or no
renderable part. -/
def render_call_result (r : CallResult) : String :=
  if r.content ≠ [] then
    let parts := r.content.filterMap (fun item =>
      match item with
      | .text s => some s
      | .typed ty => some ("[" ++ ty ++ "]")
      | .other => none)
    if parts ≠ [] then String.intercalate "\n" parts else r.asStr
  else r.asStr

/-- `MCPConnection.call_tool`: raises `RuntimeError` when not connected or
without a session; raises `ValueError` when the original tool name is not
among the discovered tools; otherwise invokes the session call, returning
its rendering, with any exception from the call converted to an
`Error: ...` string result. -/
def conn_call_tool (server : String) (st : ConnState) (tool_name : String)
    (callRes : Except PyExc CallResult) : Except PyExc String :=
  if st.connected && st.session then
    if (st.tools.map (fun p => p.2.name)).contains
        (extract_original_tool_name server tool_name) then
      match callRes with
      | .ok r => .ok (render_call_result r)
      | .error e => .ok ("Error: " ++ pyExcMsg e)
    else .error (.valueError ("Tool " ++ extract_original_tool_name server tool_name
        ++ " not found on server " ++ server))
  else .error (.runtimeError ("Server " ++ server ++ " not connected"))

/-- `MCPManager.call_tool`: extracts the server name (raising `ValueError`
on a malformed name), raises `RuntimeError` when that server has no
registered connection, and otherwise delegates to the connection's
dispatch. -/
def mgr_call_tool (conns : List (String × ConnState)) (tool_name : String)
    (callRes : Except PyExc CallResult) : Except PyExc String :=
  match extract_server_name tool_name with
  | .error e => .error e
  | .ok server =>
    match List.lookup server conns with
    | none => .error (.runtimeError ("Server " ++ server ++ " not connected"))
    | some st => conn_call_tool server st tool_name callRes

/-- C5 counterexample: `mcp_s_t` is a well-formed namespaced name (its
server part parses as `s`), yet `MCPManager.call_tool` on a manager with no
connections raises a structured `RuntimeError` — an operational
server-not-connected failure crossing the public boundary as an exception,
not as a boolean or string result. -/
theorem c5_counterexample :
    extract_server_name "mcp_s_t" = .ok "s"
    ∧ mgr_call_tool [] "mcp_s_t" (.ok ⟨[], "r"⟩)
      = .error (.runtimeError "Server s not connected") := by
  exact ⟨rfl, rfl⟩

/-- C5 (amended): the structured exceptions crossing the MCP layer's public
`call_tool` boundaries are exactly: `ValueError` for a malformed namespaced
name, `RuntimeError` for a server without a live connection (raised by both
`MCPManager.call_tool` and `MCPConnection.call_tool`), and `ValueError` for
a tool not discovered on the server; a failed call on a connected server
with a known tool is converted to an `Error: ...` string result instead of
raised.  (`ToolRegistry.execute_tool` converts all of these to strings at
the top boundary, per the C1 theorem.) -/
theorem c5_exception_classification (conns : List (String × ConnState))
    (tool_name : String) (callRes : Except PyExc CallResult) :
    (∀ e, mgr_call_tool conns tool_name callRes = .error e →
      extract_server_name tool_name = .error e
      ∨ (∃ s, extract_server_name tool_name = .ok s
          ∧ e = .runtimeError ("Server " ++ s ++ " not connected"))
      ∨ (∃ s, extract_server_name tool_name = .ok s
          ∧ e = .valueError ("Tool " ++ extract_original_tool_name s tool_name
              ++ " not found on server " ++ s)))
    ∧ (∀ (server : String) (st : ConnState) (e : PyExc),
        st.connected = true → st.session = true →
        (st.tools.map (fun p => p.2.name)).contains
          (extract_original_tool_name server tool_name) = true →
        conn_call_tool server st tool_name (.error e)
          = .ok ("Error: " ++ pyExcMsg e)) := by
  constructor
  · intro e he
    rw [mgr_call_tool.eq_def] at he
    rcases hex : extract_server_name tool_name with exc | server
    · rw [hex] at he
      have he2 : (Except.error exc : Except PyExc String) = .error e := he
      have hee : exc = e := Except.error.inj he2
      subst hee
      exact Or.inl rfl
    · rw [hex] at he
      have he2 : (match List.lookup server conns with
          | none => (Except.error (PyExc.runtimeError ("Server " ++ server ++ " not connected"))
              : Except PyExc String)
          | some st => conn_call_tool server st tool_name callRes) = .error e := he
      rcases hlk : List.lookup server conns with _ | st
      · rw [hlk] at he2
        exact Or.inr (Or.inl ⟨server, rfl, (Except.error.inj he2).symm⟩)
      · rw [hlk] at he2
        have he3 : conn_call_tool server st tool_name callRes = .error e := he2
        rw [conn_call_tool.eq_def] at he3
        by_cases hcs : (st.connected && st.session) = true
        · rw [if_pos hcs] at he3
          by_cases htl : ((st.tools.map (fun p => p.2.name)).contains
              (extract_original_tool_name server tool_name)) = true
          · rw [if_pos htl] at he3
            rcases callRes with ce | r
            · exact absurd he3 (by simp)
            · exact absurd he3 (by simp)
          · rw [if_neg htl] at he3
            exact Or.inr (Or.inr ⟨server, rfl, (Except.error.inj he3).symm⟩)
        · rw [if_neg hcs] at he3
          exact Or.inr (Or.inl ⟨server, rfl, (Except.error.inj he3).symm⟩)
  · intro server st e hconn hsess htool
    rw [conn_call_tool, if_pos (by rw [hconn, hsess]; rfl), if_pos htool]

/-- C5 witness: the classification applied to a malformed name, to a
well-formed name with no connection, and the string conversion of a failed
call on a live connection. -/
theorem c5_witness :
    (mgr_call_tool [] "noprefix" (.ok ⟨[], "r"⟩)
        = .error (.valueError "Invalid MCP tool name: noprefix")
      → extract_server_name "noprefix" = .error (.valueError "Invalid MCP tool name: noprefix")
        ∨ (∃ s, extract_server_name "noprefix" = .ok s
            ∧ PyExc.valueError "Invalid MCP tool name: noprefix"
              = .runtimeError ("Server " ++ s ++ " not connected"))
        ∨ (∃ s, extract_server_name "noprefix" = .ok s
            ∧ PyExc.valueError "Invalid MCP tool name: noprefix"
              = .valueError ("Tool " ++ extract_original_tool_name s "noprefix"
                  ++ " not found on server " ++ s)))
    ∧ conn_call_tool "s" ⟨true, [("mcp_s_t", ⟨"t", "d"⟩)], true, true, true, 0⟩ "mcp_s_t"
        (.error (.runtimeError "boom")) = .ok "Error: boom" := by
  constructor
  · exact (c5_exception_classification [] "noprefix" (.ok ⟨[], "r"⟩)).1
      (.valueError "Invalid MCP tool name: noprefix")
  · exact (c5_exception_classification [("s", ⟨true, [("mcp_s_t", ⟨"t", "d"⟩)], true, true, true, 0⟩)]
      "mcp_s_t" (.error (.runtimeError "boom"))).2 "s"
      ⟨true, [("mcp_s_t", ⟨"t", "d"⟩)], true, true, true, 0⟩ (.runtimeError "boom")
      rfl rfl (by rfl)

/-! ## Config reload (mcp_manager.py lines 25-43 and 396-421) -/

/-- `MCPServerConfig`: launch descriptor fields (the name is the map key). -/
structure MCPServerConfig where
  command : String
  args : List String
  env : List (String × String)
  autoconnect : Bool
  description : String
deriving Repr, DecidableEq

/-- `MCPServerConfig.__eq__` (lines 36-43): equality over command, args,
env and autoconnect; the description is ignored. -/
def cfg_eq (a b : MCPServerConfig) : Bool :=
  a.command == b.command && a.args == b.args && a.env == b.env
    && a.autoconnect == b.autoconnect

/-- Manager-level calls recorded while reloading: a `disconnect_server`
issued for a registered server, or a `connect_server`. -/
inductive MgrAction where
  | disc (name : String)
  | conn (name : String)
deriving Repr, DecidableEq

/-- `MCPManager.disconnect_server` at the name level: no-op success when
not registered, otherwise the connection's disconnect outcome (oracle
`discOk`) decides whether the registration is removed. -/
def disconnect_server_n (conns : List String) (discOk : String → Bool)
    (n : String) : List String × Bool :=
  if n ∈ conns then
    if discOk n then (conns.erase n, true) else (conns, false)
  else (conns, true)

/-- `MCPManager.connect_server` at the name level: fails for a name not in
the config; success without work when already registered (and connected);
otherwise the connect outcome (oracle `connOk`) decides registration. -/
def connect_server_n (servers : List (String × MCPServerConfig))
    (conns : List String) (connOk : String → Bool) (n : String) :
    List String × Bool :=
  if (List.lookup n servers).isSome then
    if n ∈ conns then (conns, true)
    else if connOk n then (n :: conns, true) else (conns, false)
  else (conns, false)

/-- The change test of `reload_config` line 417:
`name not in old_servers or old_servers[name] != config`. -/
def reload_changed (old : List (String × MCPServerConfig)) (n : String)
    (cfg : MCPServerConfig) : Bool :=
  match List.lookup n old with
  | none => true
  | some oc => !(cfg_eq oc cfg)

/-- First loop of `reload_config` (lines 409-412): over a snapshot of the
registered names, disconnect each server no longer present in the new
config.  Returns the remaining registrations and the manager calls made. -/
def reload_disconnect_loop (new : List (String × MCPServerConfig))
    (discOk : String → Bool) : List String → List String →
    List String × List MgrAction
  | [], conns => (conns, [])
  | n :: rest, conns =>
    if (List.lookup n new).isNone then
      ((reload_disconnect_loop new discOk rest (disconnect_server_n conns discOk n).1).1,
       .disc n :: (reload_disconnect_loop new discOk rest
          (disconnect_server_n conns discOk n).1).2)
    else reload_disconnect_loop new discOk rest conns

/-- Second loop of `reload_config` (lines 414-421): over the new config,
each autoconnect server that is new or changed is disconnected when
registered and then reconnected. -/
def reload_reconnect_loop (old new : List (String × MCPServerConfig))
    (discOk connOk : String → Bool) :
    List (String × MCPServerConfig) → List String →
    List String × List MgrAction
  | [], conns => (conns, [])
  | (n, cfg) :: rest, conns =>
    if cfg.autoconnect && reload_changed old n cfg then
      if n ∈ conns then
        ((reload_reconnect_loop old new discOk connOk rest
            (connect_server_n new (disconnect_server_n conns discOk n).1 connOk n).1).1,
         .disc n :: .conn n :: (reload_reconnect_loop old new discOk connOk rest
            (connect_server_n new (disconnect_server_n conns discOk n).1 connOk n).1).2)
      else
        ((reload_reconnect_loop old new discOk connOk rest
            (connect_server_n new conns connOk n).1).1,
         .conn n :: (reload_reconnect_loop old new discOk connOk rest
            (connect_server_n new conns connOk n).1).2)
    else reload_reconnect_loop old new discOk connOk rest conns

/-- `MCPManager.reload_config`: `old` is the snapshot of the previous
config map, `new` the freshly loaded one, `conns` the registered server
names; returns the final registrations and the manager calls made, in
order. -/
def reload_config (old new : List (String × MCPServerConfig))
    (conns : List String) (discOk connOk : String → Bool) :
    List String × List MgrAction :=
  ((reload_reconnect_loop old new discOk connOk new
      (reload_disconnect_loop new discOk conns conns).1).1,
   (reload_disconnect_loop new discOk conns conns).2
     ++ (reload_reconnect_loop old new discOk connOk new
          (reload_disconnect_loop new discOk conns conns).1).2)

theorem mem_disconnect_server_n (conns : List String) (discOk : String → Bool)
    (m n : String) (hne : n ≠ m) (hin : n ∈ conns) :
    n ∈ (disconnect_server_n conns discOk m).1 := by
  rw [disconnect_server_n]
  by_cases hm : m ∈ conns
  · rw [if_pos hm]
    by_cases hd : discOk m = true
    · rw [if_pos hd]
      exact (List.mem_erase_of_ne hne).mpr hin
    · rw [if_neg hd]
      exact hin
  · rw [if_neg hm]
    exact hin

theorem mem_connect_server_n (servers : List (String × MCPServerConfig))
    (conns : List String) (connOk : String → Bool) (m n : String)
    (hin : n ∈ conns) : n ∈ (connect_server_n servers conns connOk m).1 := by
  rw [connect_server_n]
  by_cases hs : (List.lookup m servers).isSome = true
  · rw [if_pos hs]
    by_cases hm : m ∈ conns
    · rw [if_pos hm]
      exact hin
    · rw [if_neg hm]
      by_cases hc : connOk m = true
      · rw [if_pos hc]
        exact List.mem_cons_of_mem m hin
      · rw [if_neg hc]
        exact hin
  · rw [if_neg hs]
    exact hin

theorem disc_loop_mem (new : List (String × MCPServerConfig)) (discOk : String → Bool)
    (iter : List String) (n : String) (hnone : List.lookup n new = none) :
    ∀ conns, n ∈ iter →
      MgrAction.disc n ∈ (reload_disconnect_loop new discOk iter conns).2 := by
  induction iter with
  | nil => intro conns hmem; cases hmem
  | cons m rest ih =>
    intro conns hmem
    rw [reload_disconnect_loop]
    rcases List.mem_cons.mp hmem with heq | hmem'
    · subst heq
      rw [if_pos (by rw [hnone]; rfl)]
      exact List.mem_cons_self _ _
    · by_cases hm : (List.lookup m new).isNone = true
      · rw [if_pos hm]
        exact List.mem_cons_of_mem _ (ih _ hmem')
      · rw [if_neg hm]
        exact ih _ hmem'

theorem mem_disc_loop_conns (new : List (String × MCPServerConfig))
    (discOk : String → Bool) (iter : List String) (n : String)
    (hsome : (List.lookup n new).isSome = true) :
    ∀ conns, n ∈ conns → n ∈ (reload_disconnect_loop new discOk iter conns).1 := by
  induction iter with
  | nil => intro conns hin; exact hin
  | cons m rest ih =>
    intro conns hin
    rw [reload_disconnect_loop]
    by_cases hm : (List.lookup m new).isNone = true
    · rw [if_pos hm]
      have hne : n ≠ m := by
        intro he
        subst he
        rw [Option.isNone_iff_eq_none.mp hm] at hsome
        exact Bool.noConfusion hsome
      exact ih _ (mem_disconnect_server_n conns discOk m n hne hin)
    · rw [if_neg hm]
      exact ih _ hin

theorem disc_loop_only (new : List (String × MCPServerConfig)) (discOk : String → Bool)
    (iter : List String) (n : String) :
    ∀ conns, MgrAction.disc n ∈ (reload_disconnect_loop new discOk iter conns).2 →
      List.lookup n new = none := by
  induction iter with
  | nil => intro conns h; cases h
  | cons m rest ih =>
    intro conns h
    rw [reload_disconnect_loop] at h
    by_cases hm : (List.lookup m new).isNone = true
    · rw [if_pos hm] at h
      rcases List.mem_cons.mp h with heq | hmem'
      · have : n = m := by
          injection heq
        subst this
        exact Option.isNone_iff_eq_none.mp hm
      · exact ih _ hmem'
    · rw [if_neg hm] at h
      exact ih _ h

theorem disc_loop_no_conn (new : List (String × MCPServerConfig)) (discOk : String → Bool)
    (iter : List String) (n : String) :
    ∀ conns, MgrAction.conn n ∉ (reload_disconnect_loop new discOk iter conns).2 := by
  induction iter with
  | nil => intro conns h; cases h
  | cons m rest ih =>
    intro conns h
    rw [reload_disconnect_loop] at h
    by_cases hm : (List.lookup m new).isNone = true
    · rw [if_pos hm] at h
      rcases List.mem_cons.mp h with heq | hmem'
      · exact MgrAction.noConfusion heq
      · exact ih _ hmem'
    · rw [if_neg hm] at h
      exact ih _ h

theorem reconnect_loop_mem (old new : List (String × MCPServerConfig))
    (discOk connOk : String → Bool) (iter : List (String × MCPServerConfig))
    (n : String) (cfg : MCPServerConfig)
    (hcond : (cfg.autoconnect && reload_changed old n cfg) = true) :
    ∀ conns, (n, cfg) ∈ iter → (iter.map Prod.fst).Nodup →
      MgrAction.conn n ∈ (reload_reconnect_loop old new discOk connOk iter conns).2
      ∧ (n ∈ conns →
          MgrAction.disc n ∈ (reload_reconnect_loop old new discOk connOk iter conns).2) := by
  induction iter with
  | nil => intro conns hmem hnd; cases hmem
  | cons p rest ih =>
    intro conns hmem hnd
    rcases p with ⟨m, cfgm⟩
    rw [reload_reconnect_loop]
    rcases List.mem_cons.mp hmem with heq | hmem'
    · have hn : n = m := congrArg Prod.fst heq
      have hcfg : cfg = cfgm := congrArg Prod.snd heq
      subst hn
      subst hcfg
      rw [if_pos hcond]
      by_cases hin : n ∈ conns
      · rw [if_pos hin]
        exact ⟨List.mem_cons_of_mem _ (List.mem_cons_self _ _),
          fun _ => List.mem_cons_self _ _⟩
      · rw [if_neg hin]
        exact ⟨List.mem_cons_self _ _, fun hin' => absurd hin' hin⟩
    · have hmn : m ≠ n := by
        intro he
        subst he
        have hmm : (m : String) ∈ rest.map Prod.fst :=
          List.mem_map.mpr ⟨(m, cfg), hmem', rfl⟩
        exact (List.nodup_cons.mp hnd).1 hmm
      have hndr : (rest.map Prod.fst).Nodup := (List.nodup_cons.mp hnd).2
      by_cases hcm : (cfgm.autoconnect && reload_changed old m cfgm) = true
      · rw [if_pos hcm]
        by_cases hin : m ∈ conns
        · rw [if_pos hin]
          have h1 := ih (connect_server_n new (disconnect_server_n conns discOk m).1 connOk m).1
            hmem' hndr
          refine ⟨List.mem_cons_of_mem _ (List.mem_cons_of_mem _ h1.1), ?_⟩
          intro hinn
          refine List.mem_cons_of_mem _ (List.mem_cons_of_mem _ (h1.2 ?_))
          exact mem_connect_server_n new _ connOk m n
            (mem_disconnect_server_n conns discOk m n (Ne.symm hmn) hinn)
        · rw [if_neg hin]
          have h1 := ih (connect_server_n new conns connOk m).1 hmem' hndr
          refine ⟨List.mem_cons_of_mem _ h1.1, ?_⟩
          intro hinn
          exact List.mem_cons_of_mem _ (h1.2 (mem_connect_server_n new conns connOk m n hinn))
      · rw [if_neg hcm]
        exact ih conns hmem' hndr

theorem reconnect_loop_only (old new : List (String × MCPServerConfig))
    (discOk connOk : String → Bool) (iter : List (String × MCPServerConfig))
    (n : String) :
    ∀ conns,
      (MgrAction.disc n ∈ (reload_reconnect_loop old new discOk connOk iter conns).2
       ∨ MgrAction.conn n ∈ (reload_reconnect_loop old new discOk connOk iter conns).2) →
      ∃ cfg, (n, cfg) ∈ iter ∧ (cfg.autoconnect && reload_changed old n cfg) = true := by
  induction iter with
  | nil =>
    intro conns h
    rcases h with h | h <;> cases h
  | cons p rest ih =>
    intro conns h
    rcases p with ⟨m, cfgm⟩
    rw [reload_reconnect_loop] at h
    by_cases hcm : (cfgm.autoconnect && reload_changed old m cfgm) = true
    · rw [if_pos hcm] at h
      by_cases hin : m ∈ conns
      · rw [if_pos hin] at h
        rcases h with h | h
        · rcases List.mem_cons.mp h with heq | h'
          · have : n = m := by injection heq
            subst this
            exact ⟨cfgm, List.mem_cons_self _ _, hcm⟩
          · rcases List.mem_cons.mp h' with heq2 | h''
            · exact absurd heq2 (by simp)
            · rcases ih _ (Or.inl h'') with ⟨cfg, hc1, hc2⟩
              exact ⟨cfg, List.mem_cons_of_mem _ hc1, hc2⟩
        · rcases List.mem_cons.mp h with heq | h'
          · exact absurd heq (by simp)
          · rcases List.mem_cons.mp h' with heq2 | h''
            · have : n = m := by injection heq2
              subst this
              exact ⟨cfgm, List.mem_cons_self _ _, hcm⟩
            · rcases ih _ (Or.inr h'') with ⟨cfg, hc1, hc2⟩
              exact ⟨cfg, List.mem_cons_of_mem _ hc1, hc2⟩
      · rw [if_neg hin] at h
        rcases h with h | h
        · rcases List.mem_cons.mp h with heq | h'
          · exact absurd heq (by simp)
          · rcases ih _ (Or.inl h') with ⟨cfg, hc1, hc2⟩
            exact ⟨cfg, List.mem_cons_of_mem _ hc1, hc2⟩
        · rcases List.mem_cons.mp h with heq | h'
          · have : n = m := by injection heq
            subst this
            exact ⟨cfgm, List.mem_cons_self _ _, hcm⟩
          · rcases ih _ (Or.inr h') with ⟨cfg, hc1, hc2⟩
            exact ⟨cfg, List.mem_cons_of_mem _ hc1, hc2⟩
    · rw [if_neg hcm] at h
      rcases ih _ h with ⟨cfg, hc1, hc2⟩
      exact ⟨cfg, List.mem_cons_of_mem _ hc1, hc2⟩

theorem lookup_of_mem_nodup {β : Type} (l : List (String × β)) (n : String) (b : β)
    (hnd : (l.map Prod.fst).Nodup) (hm : (n, b) ∈ l) : List.lookup n l = some b := by
  induction l with
  | nil => cases hm
  | cons p rest ih =>
    rcases p with ⟨k, c⟩
    rcases List.mem_cons.mp hm with heq | hm'
    · have hn : n = k := congrArg Prod.fst heq
      have hb : b = c := congrArg Prod.snd heq
      subst hn
      subst hb
      exact lookup_cons_eq n b rest
    · have hne : ¬ n = k := by
        intro he
        subst he
        have hmm : (n : String) ∈ rest.map Prod.fst :=
          List.mem_map.mpr ⟨(n, b), hm', rfl⟩
        exact (List.nodup_cons.mp hnd).1 hmm
      rw [lookup_cons_ne n k c rest hne]
      exact ih (List.nodup_cons.mp hnd).2 hm'

theorem mem_of_lookup {β : Type} (l : List (String × β)) (n : String) (b : β)
    (h : List.lookup n l = some b) : (n, b) ∈ l := by
  induction l with
  | nil => simp [List.lookup] at h
  | cons p rest ih =>
    rcases p with ⟨k, c⟩
    by_cases he : n = k
    · subst he
      rw [lookup_cons_eq] at h
      have hb : c = b := Option.some.inj h
      subst hb
      exact List.mem_cons_self _ _
    · rw [lookup_cons_ne n k c rest he] at h
      exact List.mem_cons_of_mem _ (ih h)

/-- C7: for every old and new config map, `reload_config` disconnects a
registered server absent from the new map; an autoconnect server that is
new or whose config changed under `MCPServerConfig.__eq__` (which ignores
the description) is reconnected, with a disconnect first when it is
registered; and an autoconnect server whose config is unchanged is left
untouched — neither disconnected nor reconnected. -/
theorem c7_reload_config (old new : List (String × MCPServerConfig))
    (conns : List String) (discOk connOk : String → Bool) (n : String) :
    (n ∈ conns → List.lookup n new = none →
      MgrAction.disc n ∈ (reload_config old new conns discOk connOk).2)
    ∧ (∀ cfg, (new.map Prod.fst).Nodup → List.lookup n new = some cfg →
        cfg.autoconnect = true → reload_changed old n cfg = true →
        MgrAction.conn n ∈ (reload_config old new conns discOk connOk).2
        ∧ (n ∈ conns →
            MgrAction.disc n ∈ (reload_config old new conns discOk connOk).2))
    ∧ (∀ cfg oc, (new.map Prod.fst).Nodup → List.lookup n new = some cfg →
        List.lookup n old = some oc → cfg_eq oc cfg = true →
        MgrAction.disc n ∉ (reload_config old new conns discOk connOk).2
        ∧ MgrAction.conn n ∉ (reload_config old new conns discOk connOk).2) := by
  refine ⟨?_, ?_, ?_⟩
  · intro hin hnone
    exact List.mem_append_left _ (disc_loop_mem new discOk conns n hnone conns hin)
  · intro cfg hnd hlk hauto hch
    have hmem : (n, cfg) ∈ new := mem_of_lookup new n cfg hlk
    have hcond : (cfg.autoconnect && reload_changed old n cfg) = true := by
      rw [hauto, hch]
      rfl
    have h2 := reconnect_loop_mem old new discOk connOk new n cfg hcond
      (reload_disconnect_loop new discOk conns conns).1 hmem hnd
    constructor
    · exact List.mem_append_right _ h2.1
    · intro hin
      have hin1 : n ∈ (reload_disconnect_loop new discOk conns conns).1 :=
        mem_disc_loop_conns new discOk conns n (by rw [hlk]; rfl) conns hin
      exact List.mem_append_right _ (h2.2 hin1)
  · intro cfg oc hnd hlk hold hceq
    have hch : reload_changed old n cfg = false := by
      rw [reload_changed.eq_def, hold]
      show (!(cfg_eq oc cfg)) = false
      rw [hceq]
      rfl
    constructor
    · intro hmem
      rcases List.mem_append.mp hmem with h1 | h2
      · have hn := disc_loop_only new discOk conns n conns h1
        rw [hlk] at hn
        exact Option.noConfusion hn
      · rcases reconnect_loop_only old new discOk connOk new n _ (Or.inl h2)
          with ⟨cfg', hc1, hc2⟩
        have hl2 : List.lookup n new = some cfg' := lookup_of_mem_nodup new n cfg' hnd hc1
        rw [hlk] at hl2
        have hcc : cfg' = cfg := (Option.some.inj hl2).symm
        subst hcc
        rw [hch] at hc2
        simp at hc2
    · intro hmem
      rcases List.mem_append.mp hmem with h1 | h2
      · exact disc_loop_no_conn new discOk conns n conns h1
      · rcases reconnect_loop_only old new discOk connOk new n _ (Or.inr h2)
          with ⟨cfg', hc1, hc2⟩
        have hl2 : List.lookup n new = some cfg' := lookup_of_mem_nodup new n cfg' hnd hc1
        rw [hlk] at hl2
        have hcc : cfg' = cfg := (Option.some.inj hl2).symm
        subst hcc
        rw [hch] at hc2
        simp at hc2

/-- C7 witness: a removed registered server is disconnected; a changed
autoconnect server is reconnected; an unchanged autoconnect server is left
alone. -/
theorem c7_witness :
    MgrAction.disc "gone" ∈ (reload_config [("gone", ⟨"c", [], [], false, ""⟩)] []
        ["gone"] (fun _ => true) (fun _ => true)).2
    ∧ MgrAction.conn "a" ∈ (reload_config [("a", ⟨"c", ["x"], [], true, ""⟩)]
        [("a", ⟨"c", ["y"], [], true, ""⟩)] [] (fun _ => true) (fun _ => true)).2
    ∧ MgrAction.disc "u" ∉ (reload_config [("u", ⟨"c", [], [], true, ""⟩)]
        [("u", ⟨"c", [], [], true, ""⟩)] ["u"] (fun _ => true) (fun _ => true)).2 := by
  refine ⟨?_, ?_, ?_⟩
  · exact (c7_reload_config [("gone", ⟨"c", [], [], false, ""⟩)] [] ["gone"]
      (fun _ => true) (fun _ => true) "gone").1 (List.mem_singleton.mpr rfl) rfl
  · exact ((c7_reload_config [("a", ⟨"c", ["x"], [], true, ""⟩)]
      [("a", ⟨"c", ["y"], [], true, ""⟩)] [] (fun _ => true) (fun _ => true) "a").2.1
      ⟨"c", ["y"], [], true, ""⟩ (by simp) rfl rfl (by rfl)).1
  · exact ((c7_reload_config [("u", ⟨"c", [], [], true, ""⟩)]
      [("u", ⟨"c", [], [], true, ""⟩)] ["u"] (fun _ => true) (fun _ => true) "u").2.2
      ⟨"c", [], [], true, ""⟩ ⟨"c", [], [], true, ""⟩ (by simp) rfl rfl rfl).1

/-! ## Calculator (tools.py lines 71-153)

The expression string is checked against a character allow-list and a
length ceiling, then parsed (`ast.parse(expression, mode='eval')`) into an
arithmetic expression tree and evaluated recursively.  The parser below
implements Python's expression grammar restricted to the characters the
allow-list admits (numbers, `+ - * / // % **`, unary signs, parentheses).
Numbers are modelled as exact rationals (`MRat`, an integer numerator over
a positive natural denominator, not kept reduced); Python's binary floats
round some literals and `/` results, and a fractional exponent produces an
irrational float — both outside this carrier and flagged explicitly
below. -/

/-- Exact rational numbers as evaluated by the calculator model: numerator
and (positive, by construction of every operation below) denominator. -/
structure MRat where
  num : Int
  den : Nat
deriving Repr, DecidableEq

def MRat.add (a b : MRat) : MRat := ⟨a.num * b.den + b.num * a.den, a.den * b.den⟩

def MRat.sub (a b : MRat) : MRat := ⟨a.num * b.den - b.num * a.den, a.den * b.den⟩

def MRat.mul (a b : MRat) : MRat := ⟨a.num * b.num, a.den * b.den⟩

def MRat.neg (a : MRat) : MRat := ⟨-a.num, a.den⟩

def MRat.recip (a : MRat) : MRat :=
  if a.num > 0 then ⟨(a.den : Int), a.num.toNat⟩
  else if a.num < 0 then ⟨-(a.den : Int), (-a.num).toNat⟩
  else ⟨0, 1⟩

def MRat.div (a b : MRat) : MRat := a.mul b.recip

def MRat.absQ (a : MRat) : MRat := ⟨|a.num|, a.den⟩

def MRat.isZero (a : MRat) : Bool := a.num == 0

/-- Value equality (cross multiplication; denominators are positive). -/
def MRat.beqQ (a b : MRat) : Bool := a.num * b.den == b.num * a.den

def MRat.ltQ (a b : MRat) : Bool := a.num * b.den < b.num * a.den

def MRat.gtQ (a b : MRat) : Bool := MRat.ltQ b a

/-- `math.floor` on an exact rational: flooring integer division. -/
def MRat.floorQ (a : MRat) : Int := a.num.fdiv a.den

/-- Whether the value is an integer (Python's `**` stays exact iff so). -/
def MRat.isInt (a : MRat) : Bool := a.num % (a.den : Int) == 0

def MRat.powNat (a : MRat) : Nat → MRat
  | 0 => ⟨1, 1⟩
  | n + 1 => a.mul (a.powNat n)

def MRat.powInt (a : MRat) (z : Int) : MRat :=
  if z < 0 then (a.powNat (-z).toNat).recip else a.powNat z.toNat

/-- The allow-list of tools.py line 82: `set("0123456789+-*/()%. ")`. -/
def allowedCalcChar (c : Char) : Bool :=
  c.isDigit || c = '+' || c = '-' || c = '*' || c = '/' || c = '(' || c = ')'
    || c = '%' || c = '.' || c = ' '

inductive CalcTok where
  | num (q : MRat)
  | plus
  | minus
  | star
  | slash
  | dslash
  | percent
  | dstar
  | lparen
  | rparen
deriving Repr, DecidableEq

def digitsToNat (l : List Char) : Nat :=
  l.foldl (fun acc c => acc * 10 + (c.toNat - 48)) 0

/-- Python's numeric-literal rules for the characters the allow-list
admits: a decimal integer (leading zeros only when all digits are zero) or
a point float `d*.d*` with at least one digit; the value is exact
(`ip.frac = (ip*10^k + frac) / 10^k`). -/
def validNumLit (run : List Char) : Option MRat :=
  match run.drop (run.takeWhile Char.isDigit).length with
  | [] =>
    if run ≠ [] ∧ (run.head? = some '0' → run.all (fun c => c = '0')) then
      some ⟨(digitsToNat run : Int), 1⟩
    else none
  | '.' :: frac =>
    if frac.all Char.isDigit ∧ (run.takeWhile Char.isDigit ≠ [] ∨ frac ≠ []) then
      some ⟨(digitsToNat (run.takeWhile Char.isDigit) * 10 ^ frac.length
        + digitsToNat frac : Nat), 10 ^ frac.length⟩
    else none
  | _ => none

/-- Tokenizer for the allow-listed characters, fuelled by the input length
(one fuel unit per emitted token or skipped space, so the initial fuel
below never runs out). -/
def tokenizeFuel : Nat → List Char → Option (List CalcTok)
  | 0, _ => none
  | _, [] => some []
  | f + 1, c :: rest =>
    if c = ' ' then tokenizeFuel f rest
    else if c = '+' then (tokenizeFuel f rest).map (CalcTok.plus :: ·)
    else if c = '-' then (tokenizeFuel f rest).map (CalcTok.minus :: ·)
    else if c = '*' then
      match rest with
      | '*' :: rest2 => (tokenizeFuel f rest2).map (CalcTok.dstar :: ·)
      | _ => (tokenizeFuel f rest).map (CalcTok.star :: ·)
    else if c = '/' then
      match rest with
      | '/' :: rest2 => (tokenizeFuel f rest2).map (CalcTok.dslash :: ·)
      | _ => (tokenizeFuel f rest).map (CalcTok.slash :: ·)
    else if c = '%' then (tokenizeFuel f rest).map (CalcTok.percent :: ·)
    else if c = '(' then (tokenizeFuel f rest).map (CalcTok.lparen :: ·)
    else if c = ')' then (tokenizeFuel f rest).map (CalcTok.rparen :: ·)
    else if c.isDigit || c = '.' then
      match validNumLit ((c :: rest).takeWhile (fun d => d.isDigit || d = '.')) with
      | some q =>
        (tokenizeFuel f ((c :: rest).drop
          ((c :: rest).takeWhile (fun d => d.isDigit || d = '.')).length)).map
          (CalcTok.num q :: ·)
      | none => none
    else none

def tokenize (l : List Char) : Option (List CalcTok) :=
  tokenizeFuel (l.length + 1) l

/-- Binary operators of Python's `ast.BinOp` reachable from the
allow-listed characters. -/
inductive PyOp where
  | add
  | sub
  | mult
  | div
  | floordiv
  | mod
  | pow
deriving Repr, DecidableEq

inductive PyUOp where
  | uadd
  | usub
deriving Repr, DecidableEq

/-- The expression tree produced by `ast.parse(..., mode='eval')` on the
admitted character set. -/
inductive PyExpr where
  | num (q : MRat)
  | binop (op : PyOp) (l : PyExpr) (r : PyExpr)
  | unaryop (op : PyUOp) (e : PyExpr)
deriving Repr, DecidableEq

mutual

/-- `expr := term (('+'|'-') term)*` (left associative). -/
def parseE : Nat → List CalcTok → Option (PyExpr × List CalcTok)
  | 0, _ => none
  | f + 1, ts =>
    match parseT f ts with
    | none => none
    | some (e, rest) => parseELoop f e rest

def parseELoop : Nat → PyExpr → List CalcTok → Option (PyExpr × List CalcTok)
  | 0, _, _ => none
  | f + 1, acc, ts =>
    match ts with
    | .plus :: rest =>
      match parseT f rest with
      | none => none
      | some (e2, rest2) => parseELoop f (.binop .add acc e2) rest2
    | .minus :: rest =>
      match parseT f rest with
      | none => none
      | some (e2, rest2) => parseELoop f (.binop .sub acc e2) rest2
    | _ => some (acc, ts)

/-- `term := factor (('*'|'/'|'//'|'%') factor)*` (left associative). -/
def parseT : Nat → List CalcTok → Option (PyExpr × List CalcTok)
  | 0, _ => none
  | f + 1, ts =>
    match parseF f ts with
    | none => none
    | some (e, rest) => parseTLoop f e rest

def parseTLoop : Nat → PyExpr → List CalcTok → Option (PyExpr × List CalcTok)
  | 0, _, _ => none
  | f + 1, acc, ts =>
    match ts with
    | .star :: rest =>
      match parseF f rest with
      | none => none
      | some (e2, rest2) => parseTLoop f (.binop .mult acc e2) rest2
    | .slash :: rest =>
      match parseF f rest with
      | none => none
      | some (e2, rest2) => parseTLoop f (.binop .div acc e2) rest2
    | .dslash :: rest =>
      match parseF f rest with
      | none => none
      | some (e2, rest2) => parseTLoop f (.binop .floordiv acc e2) rest2
    | .percent :: rest =>
      match parseF f rest with
      | none => none
      | some (e2, rest2) => parseTLoop f (.binop .mod acc e2) rest2
    | _ => some (acc, ts)

/-- `factor := ('+'|'-') factor | power` (unary sign). -/
def parseF : Nat → List CalcTok → Option (PyExpr × List CalcTok)
  | 0, _ => none
  | f + 1, ts =>
    match ts with
    | .plus :: rest =>
      match parseF f rest with
      | none => none
      | some (e, rest2) => some (.unaryop .uadd e, rest2)
    | .minus :: rest =>
      match parseF f rest with
      | none => none
      | some (e, rest2) => some (.unaryop .usub e, rest2)
    | _ => parsePow f ts

/-- `power := atom ['**' factor]` (right associative, binds tighter than a
unary sign on its left, looser on its right). -/
def parsePow : Nat → List CalcTok → Option (PyExpr × List CalcTok)
  | 0, _ => none
  | f + 1, ts =>
    match parseAtom f ts with
    | none => none
    | some (a, rest) =>
      match rest with
      | .dstar :: rest2 =>
        match parseF f rest2 with
        | none => none
        | some (e, rest3) => some (.binop .pow a e, rest3)
      | _ => some (a, rest)

/-- `atom := NUMBER | '(' expr ')'`. -/
def parseAtom : Nat → List CalcTok → Option (PyExpr × List CalcTok)
  | 0, _ => none
  | f + 1, ts =>
    match ts with
    | .num q :: rest => some (.num q, rest)
    | .lparen :: rest =>
      match parseE f rest with
      | some (e, .rparen :: rest2) => some (e, rest2)
      | _ => none
    | _ => none

end

/-- `ast.parse(expression, mode='eval')` on the admitted characters: the
whole token list must be consumed. -/
def pyParseExpr (ts : List CalcTok) : Option PyExpr :=
  match parseE (5 * (ts.length + 1)) ts with
  | some (e, []) => some e
  | _ => none

/-- Exceptions raised inside `eval_node`: `ValueError` with a message, the
`ZeroDivisionError` of `operator.mod`/`operator.pow`, or a power whose
result is irrational (a Python float outside this model's exact rational
carrier; no claim exercises this branch). -/
inductive CalcExc where
  | valueError (msg : String)
  | zeroDivision
  | nonRationalPow
deriving Repr, DecidableEq

def pyOpName : PyOp → String
  | .add => "Add"
  | .sub => "Sub"
  | .mult => "Mult"
  | .div => "Div"
  | .floordiv => "FloorDiv"
  | .mod => "Mod"
  | .pow => "Pow"

/-- The `safe_operators` table of tools.py lines 91-100: `FloorDiv` is the
one reachable `ast` operator missing from it. -/
def safeOp : PyOp → Bool
  | .floordiv => false
  | _ => true

/-- `operator.mod` on numbers: `a - b * floor(a / b)`, `ZeroDivisionError`
when `b = 0`. -/
def pyMod (a b : MRat) : Except CalcExc MRat :=
  if b.isZero then .error .zeroDivision
  else .ok (a.sub (b.mul ⟨MRat.floorQ (a.div b), 1⟩))

/-- `operator.pow` on numbers: an integral exponent gives an exact rational
power (`ZeroDivisionError` on `0 ** negative`); a fractional exponent gives
an irrational float, flagged as outside the rational carrier. -/
def pyPow (a b : MRat) : Except CalcExc MRat :=
  if b.isInt then
    if a.isZero && decide (b.num.fdiv b.den < 0) then .error .zeroDivision
    else .ok (a.powInt (b.num.fdiv b.den))
  else .error .nonRationalPow

def applyOp (op : PyOp) (a b : MRat) : Except CalcExc MRat :=
  match op with
  | .add => .ok (a.add b)
  | .sub => .ok (a.sub b)
  | .mult => .ok (a.mul b)
  | .div => .ok (a.div b)
  | .floordiv => .ok ⟨0, 1⟩
  | .mod => pyMod a b
  | .pow => pyPow a b

/-- `eval_node` (tools.py lines 102-143): depth guard at entry, operands
evaluated first, then the operator allow-list check, the power magnitude
guard, the explicit division-by-zero check, the operation, and the
intermediate-result overflow guard (`1e100`). -/
def eval_node : PyExpr → Nat → Except CalcExc MRat
  | .num q, depth =>
    if depth > 50 then .error (.valueError "Expression too complex (max depth: 50)")
    else .ok q
  | .binop op l r, depth =>
    if depth > 50 then .error (.valueError "Expression too complex (max depth: 50)")
    else
      match eval_node l (depth + 1) with
      | .error e1 => .error e1
      | .ok lv =>
        match eval_node r (depth + 1) with
        | .error e2 => .error e2
        | .ok rv =>
          if safeOp op = false then
            .error (.valueError ("Unsupported operation: " ++ pyOpName op))
          else if op = .pow ∧ (lv.absQ.gtQ ⟨1000, 1⟩ || rv.absQ.gtQ ⟨100, 1⟩) = true then
            .error (.valueError
              "Power operation values too large (base max: 1000, exponent max: 100)")
          else if op = .div ∧ rv.isZero = true then
            .error (.valueError "Division by zero")
          else
            match applyOp op lv rv with
            | .error e3 => .error e3
            | .ok res =>
              if res.absQ.gtQ ⟨10 ^ 100, 1⟩ then
                .error (.valueError "Result too large (overflow)")
              else .ok res
  | .unaryop op e1, depth =>
    if depth > 50 then .error (.valueError "Expression too complex (max depth: 50)")
    else
      match eval_node e1 (depth + 1) with
      | .error e2 => .error e2
      | .ok v =>
        match op with
        | .uadd => .ok v
        | .usub => .ok v.neg

/-- `calculator(expression)` (tools.py lines 71-153): character allow-list
check, length ceiling, parse, recursive evaluation starting at depth 0,
with a `ZeroDivisionError` surfaced as `Division by zero` and every other
evaluation error wrapped as `Invalid expression: ...`.  The result type
`Except String` mirrors raising `ValueError(message)` versus returning a
number (`float(result)` preserves the value on this exact carrier). -/
def calculator (expression : String) : Except String MRat :=
  if expression.data.all allowedCalcChar then
    if expression.length > 200 then
      .error "Expression too long (max 200 characters)"
    else
      match tokenize expression.data with
      | none => .error "Invalid expression: invalid syntax"
      | some ts =>
        match pyParseExpr ts with
        | none => .error "Invalid expression: invalid syntax"
        | some e =>
          match eval_node e 0 with
          | .ok q => .ok q
          | .error .zeroDivision => .error "Division by zero"
          | .error (.valueError m) => .error ("Invalid expression: " ++ m)
          | .error .nonRationalPow =>
            .error "Invalid expression: non-integer power outside the rational model"
  else .error "Expression contains invalid characters"

set_option maxRecDepth 100000

/-- C8: `calculator("2 + 2")` returns 4; `calculator("10 / 0")` fails with
the division-by-zero validation error; `calculator("9999 ** 2")` fails with
the power magnitude guard (base limit 1000, exponent limit 100);
`calculator("import os")` fails with the invalid-character error; inputs
longer than 200 characters are rejected; recursion depth beyond 50 is
rejected; an intermediate result beyond `1e100` is rejected; and for every
input the function yields either a numeric result or a descriptive error
string — its result type admits no raw exception. -/
theorem c8_calculator (s : String) (e l r : PyExpr) (d : Nat) (a b : MRat) :
    calculator "2 + 2" = .ok ⟨4, 1⟩
    ∧ calculator "10 / 0" = .error "Invalid expression: Division by zero"
    ∧ calculator "9999 ** 2" = .error
        "Invalid expression: Power operation values too large (base max: 1000, exponent max: 100)"
    ∧ calculator "import os" = .error "Expression contains invalid characters"
    ∧ (s.data.all allowedCalcChar = true → s.length > 200 →
        calculator s = .error "Expression too long (max 200 characters)")
    ∧ (d > 50 → eval_node e d = .error (.valueError "Expression too complex (max depth: 50)"))
    ∧ (d ≤ 50 → eval_node l (d + 1) = .ok a → eval_node r (d + 1) = .ok b →
        (a.add b).absQ.gtQ ⟨10 ^ 100, 1⟩ = true →
        eval_node (.binop .add l r) d = .error (.valueError "Result too large (overflow)"))
    ∧ (∀ t : String, (∃ q, calculator t = .ok q) ∨ (∃ m, calculator t = .error m)) := by
  refine ⟨by decide, by decide, by decide, by decide, ?_, ?_, ?_, ?_⟩
  · intro hchar hlen
    rw [calculator, if_pos hchar, if_pos hlen]
  · intro hd
    cases e <;> simp [eval_node, hd]
  · intro hd h1 h2 hover
    have hnd : ¬ (d > 50) := by omega
    rw [eval_node, if_neg hnd, h1, h2]
    simp [safeOp, applyOp]
    simpa using hover
  · intro t
    cases calculator t with
    | ok q => exact Or.inl ⟨q, rfl⟩
    | error m => exact Or.inr ⟨m, rfl⟩

/-- C8 witness: the length ceiling on a 201-character input, the depth
ceiling at depth 51, and the overflow guard on `1e100 + 1e100`. -/
theorem c8_witness :
    calculator (String.mk (List.replicate 201 '1'))
      = .error "Expression too long (max 200 characters)"
    ∧ eval_node (.num ⟨1, 1⟩) 51
      = .error (.valueError "Expression too complex (max depth: 50)")
    ∧ eval_node (.binop .add (.num ⟨10 ^ 100, 1⟩) (.num ⟨10 ^ 100, 1⟩)) 0
      = .error (.valueError "Result too large (overflow)") := by
  refine ⟨?_, ?_, ?_⟩
  · exact (c8_calculator (String.mk (List.replicate 201 '1'))
      (.num ⟨1, 1⟩) (.num ⟨1, 1⟩) (.num ⟨1, 1⟩) 0 ⟨1, 1⟩ ⟨1, 1⟩).2.2.2.2.1
      (by decide) (by decide)
  · exact (c8_calculator "" (.num ⟨1, 1⟩) (.num ⟨1, 1⟩) (.num ⟨1, 1⟩) 51
      ⟨1, 1⟩ ⟨1, 1⟩).2.2.2.2.2.1 (by decide)
  · exact (c8_calculator "" (.num ⟨1, 1⟩) (.num ⟨10 ^ 100, 1⟩) (.num ⟨10 ^ 100, 1⟩) 0
      ⟨10 ^ 100, 1⟩ ⟨10 ^ 100, 1⟩).2.2.2.2.2.2.1 (by decide) (by decide) (by decide)
      (by decide)

/-! ## Shell executor (tools.py lines 179-260) -/

/-- Python `str.strip()` whitespace / regex `\s` for the ASCII range. -/
def isPyWhitespace (c : Char) : Bool :=
  c = ' ' || c = '\t' || c = '\n' || c = '\r' || c = '\x0b' || c = '\x0c'

/-- The character class of the first deny pattern `[;&|`$]`. -/
def dangerousChar (c : Char) : Bool :=
  c = ';' || c = '&' || c = '|' || c = Char.ofNat 96 || c = '$'

/-- `re.search` of a literal substring. -/
def containsSeq (pat : List Char) : List Char → Bool
  | [] => pat.isPrefixOf []
  | c :: rest => pat.isPrefixOf (c :: rest) || containsSeq pat rest

/-- `re.search(r">\s*/dev", s)`: a `>` followed by optional whitespace and
`/dev` somewhere in the string. -/
def devRedirect : List Char → Bool
  | [] => false
  | c :: rest =>
    (c = '>' && "/dev".data.isPrefixOf (rest.dropWhile isPyWhitespace)) || devRedirect rest

/-- Whether `rm\s+-rf\s+/` matches at the head of the list. -/
def rmMatchAt : List Char → Bool
  | 'r' :: 'm' :: rest =>
    let ws1 := rest.takeWhile isPyWhitespace
    !ws1.isEmpty && "-rf".data.isPrefixOf (rest.drop ws1.length)
      && (let rest2 := (rest.drop ws1.length).drop 3
          let ws2 := rest2.takeWhile isPyWhitespace
          !ws2.isEmpty && "/".data.isPrefixOf (rest2.drop ws2.length))
  | _ => false

/-- `re.search(r"rm\s+-rf\s+/", s)`. -/
def rmDangerous : List Char → Bool
  | [] => false
  | c :: rest => rmMatchAt (c :: rest) || rmDangerous rest

/-- The deny list of tools.py lines 201-206, with each pattern's source
text (used verbatim in the raised message) and its matcher, in check
order. -/
def dangerous_patterns : List (String × (List Char → Bool)) :=
  [("[;&|`$]", fun l => l.any dangerousChar),
   ("\\$\\(", fun l => containsSeq ['$', '('] l),
   (">\\s*/dev", devRedirect),
   ("rm\\s+-rf\\s+/", rmDangerous)]

/-- The first deny pattern matching the command, if any. -/
def findDangerous (l : List Char) : Option String :=
  match dangerous_patterns.find? (fun p => p.2 l) with
  | some p => some p.1
  | none => none

/-- The validation phase of `shell_command` (lines 192-210), in source
order: empty or whitespace-only, length ceiling, deny list.  Returns the
`ValueError` message, or `none` when the command passes and execution is
attempted. -/
def shellValidate (command : String) : Option String :=
  if command.data.isEmpty || command.data.all isPyWhitespace then
    some "Command cannot be empty"
  else if command.length > 1000 then
    some "Command too long (max 1000 characters)"
  else
    match findDangerous command.data with
    | some pat => some ("Command contains potentially dangerous pattern: " ++ pat)
    | none => none

inductive ShellErr where
  | valueError (msg : String)
  | timeoutError (msg : String)
  | runtimeError (msg : String)
deriving Repr, DecidableEq

/-- Outcome of `subprocess.run`: a `TimeoutExpired`, another raised
exception (its message), or completion with captured streams and exit
code. -/
inductive ExecOutcome where
  | timedOut
  | raised (msg : String)
  | finished (stdout : String) (stderr : String) (returncode : Int)
deriving Repr, DecidableEq

/-- The character class of the path-redaction regex
`/[a-zA-Z0-9/_\-\.]+`. -/
def pathChar (c : Char) : Bool :=
  c.isAlphanum || c = '/' || c = '_' || c = '-' || c = '.'

/-- `re.sub(r"/[a-zA-Z0-9/_\-\.]+", "[PATH]", msg)` (line 259), fuelled
by the input length (each step consumes at least one character). -/
def redactPathsFuel : Nat → List Char → List Char
  | 0, l => l
  | _, [] => []
  | f + 1, c :: rest =>
    if c = '/' && !(rest.takeWhile pathChar).isEmpty then
      "[PATH]".data ++ redactPathsFuel f (rest.drop (rest.takeWhile pathChar).length)
    else c :: redactPathsFuel f rest

def redactPaths (l : List Char) : List Char := redactPathsFuel (l.length + 1) l

/-- `result.stdout[:100000]` with its truncation annotation (lines
233-236). -/
def shellStdoutPart (out : String) : String :=
  (⟨out.data.take 100000⟩ : String)
    ++ (if out.length > 100000 then "\n[output truncated]" else "")

/-- The `[stderr]` section with its own 100 KB ceiling and annotation
(lines 238-242). -/
def shellStderrPart (err : String) : String :=
  if err ≠ "" then
    "\n[stderr]:\n" ++ (⟨err.data.take 100000⟩ : String)
      ++ (if err.length > 100000 then "\n[stderr truncated]" else "")
  else ""

/-- The exit-code annotation for a non-zero return code (lines 245-246). -/
def shellExitPart (rc : Int) : String :=
  if rc ≠ 0 then "\n[exit code: " ++ toString rc ++ "]" else ""

/-- `shell_command(command, timeout)` (lines 179-260): validation first
(no subprocess consulted when it fails), then the execution outcome:
timeout becomes the distinct `TimeoutError`, another exception becomes a
`RuntimeError` with filesystem paths redacted, and completion yields the
assembled output, `(no output)` when empty. -/
def shell_command (command : String) (timeout : Nat) (run : ExecOutcome) :
    Except ShellErr String :=
  match shellValidate command with
  | some msg => .error (.valueError msg)
  | none =>
    match run with
    | .timedOut =>
      .error (.timeoutError ("Command timed out after " ++ toString timeout ++ " seconds"))
    | .raised msg =>
      .error (.runtimeError ("Command execution failed: "
        ++ (⟨redactPaths msg.data⟩ : String)))
    | .finished out err rc =>
      if shellStdoutPart out ++ shellStderrPart err ++ shellExitPart rc = "" then
        .ok "(no output)"
      else .ok (shellStdoutPart out ++ shellStderrPart err ++ shellExitPart rc)

/-- C9: a command that is empty or whitespace-only, longer than 1000
characters, or matching a deny-list pattern fails with a validation error
before any execution is attempted (the result does not depend on the
subprocess outcome); a command exceeding the timeout fails as the distinct
named `TimeoutError`, not the generic execution failure; stdout and stderr
are captured independently under separate 100 KB ceilings with truncation
annotated per stream; and a non-zero exit code is appended as an explicit
annotation. -/
theorem c9_shell_command (command : String) (t : Nat) (run run2 : ExecOutcome)
    (out err : String) (rc : Int) :
    (∀ msg, shellValidate command = some msg →
      shell_command command t run = .error (.valueError msg)
      ∧ shell_command command t run = shell_command command t run2)
    ∧ (command.data.all isPyWhitespace = true →
        shellValidate command = some "Command cannot be empty")
    ∧ (command.data.all isPyWhitespace = false → command.length > 1000 →
        shellValidate command = some "Command too long (max 1000 characters)")
    ∧ (∀ pat, command.data.all isPyWhitespace = false → ¬ command.length > 1000 →
        findDangerous command.data = some pat →
        shellValidate command
          = some ("Command contains potentially dangerous pattern: " ++ pat))
    ∧ (shellValidate command = none →
        shell_command command t .timedOut
          = .error (.timeoutError ("Command timed out after " ++ toString t ++ " seconds")))
    ∧ (shellValidate command = none → rc ≠ 0 →
        shell_command command t (.finished out err rc)
          = .ok (shellStdoutPart out ++ shellStderrPart err
              ++ ("\n[exit code: " ++ toString rc ++ "]")))
    ∧ (out.length > 100000 →
        shellStdoutPart out = (⟨out.data.take 100000⟩ : String) ++ "\n[output truncated]")
    ∧ (err ≠ "" → err.length > 100000 →
        shellStderrPart err = "\n[stderr]:\n" ++ (⟨err.data.take 100000⟩ : String)
          ++ "\n[stderr truncated]") := by
  refine ⟨?_, ?_, ?_, ?_, ?_, ?_, ?_, ?_⟩
  · intro msg hv
    have h1 : shell_command command t run = .error (.valueError msg) := by
      rw [shell_command.eq_def, hv]
    have h2 : shell_command command t run2 = .error (.valueError msg) := by
      rw [shell_command.eq_def, hv]
    exact ⟨h1, h1.trans h2.symm⟩
  · intro hws
    rw [shellValidate, if_pos (by rw [hws]; exact Bool.or_true _)]
  · intro hws hlen
    have hemp : command.data.isEmpty = false := by
      cases hd : command.data with
      | nil =>
        rw [hd] at hws
        simp at hws
      | cons a l => rfl
    rw [shellValidate, if_neg (by rw [hemp, hws]; exact Bool.false_ne_true), if_pos hlen]
  · intro pat hws hlen hfd
    have hemp : command.data.isEmpty = false := by
      cases hd : command.data with
      | nil =>
        rw [hd] at hws
        simp at hws
      | cons a l => rfl
    rw [shellValidate, if_neg (by rw [hemp, hws]; exact Bool.false_ne_true), if_neg hlen, hfd]
  · intro hv
    rw [shell_command.eq_def, hv]
  · intro hv hrc
    have hc : 0 < (shellExitPart rc).length := by
      rw [shellExitPart, if_pos hrc, String.length_append, String.length_append]
      have h1 : (0 : Nat) < ("]" : String).length := by decide
      omega
    have hne : shellStdoutPart out ++ shellStderrPart err ++ shellExitPart rc ≠ "" := by
      intro heq
      have hlen2 : (shellStdoutPart out ++ shellStderrPart err ++ shellExitPart rc).length
          = ("" : String).length := by rw [heq]
      rw [String.length_append, String.length_append] at hlen2
      have hz : ("" : String).length = 0 := rfl
      omega
    have hstep : shell_command command t (.finished out err rc)
        = (if shellStdoutPart out ++ shellStderrPart err ++ shellExitPart rc = "" then
            (.ok "(no output)" : Except ShellErr String)
          else .ok (shellStdoutPart out ++ shellStderrPart err ++ shellExitPart rc)) := by
      rw [shell_command.eq_def, hv]
    rw [hstep, if_neg hne, shellExitPart, if_pos hrc]
  · intro hlong
    rw [shellStdoutPart, if_pos hlong]
  · intro hne hlong
    rw [shellStderrPart, if_pos hne, if_pos hlong]

/-- C9 witness: the deny list rejects `echo a; rm -rf /` identically under
two different execution outcomes; a timeout is the named timeout error; a
non-zero exit code is annotated; and both truncation annotations appear on
oversized streams. -/
theorem c9_witness :
    shell_command "echo a; rm -rf /" 30 (.finished "x" "" 0)
      = .error (.valueError "Command contains potentially dangerous pattern: [;&|`$]")
    ∧ shell_command "echo a; rm -rf /" 30 (.finished "x" "" 0)
      = shell_command "echo a; rm -rf /" 30 .timedOut
    ∧ shell_command "sleep 5" 1 .timedOut
      = .error (.timeoutError "Command timed out after 1 seconds")
    ∧ shell_command "false" 30 (.finished "" "" 1)
      = .ok (shellStdoutPart "" ++ shellStderrPart "" ++ "\n[exit code: 1]")
    ∧ shellStdoutPart (String.mk (List.replicate 100001 'a'))
      = (⟨(String.mk (List.replicate 100001 'a')).data.take 100000⟩ : String)
          ++ "\n[output truncated]"
    ∧ shellStderrPart (String.mk (List.replicate 100001 'b'))
      = "\n[stderr]:\n" ++ (⟨(String.mk (List.replicate 100001 'b')).data.take 100000⟩ : String)
          ++ "\n[stderr truncated]" := by
  have hlen : (String.mk (List.replicate 100001 'a')).length > 100000 := by
    show (List.replicate 100001 'a').length > 100000
    rw [List.length_replicate]
    omega
  have hlenb : (String.mk (List.replicate 100001 'b')).length > 100000 := by
    show (List.replicate 100001 'b').length > 100000
    rw [List.length_replicate]
    omega
  have hneb : (String.mk (List.replicate 100001 'b')) ≠ "" := by
    intro h
    have : (String.mk (List.replicate 100001 'b')).length = ("" : String).length := by rw [h]
    rw [show ("" : String).length = 0 from rfl] at this
    omega
  refine ⟨?_, ?_, ?_, ?_, ?_, ?_⟩
  · exact (c9_shell_command "echo a; rm -rf /" 30 (.finished "x" "" 0) .timedOut
      "" "" 0).1 "Command contains potentially dangerous pattern: [;&|`$]" (by decide) |>.1
  · exact (c9_shell_command "echo a; rm -rf /" 30 (.finished "x" "" 0) .timedOut
      "" "" 0).1 "Command contains potentially dangerous pattern: [;&|`$]" (by decide) |>.2
  · exact (c9_shell_command "sleep 5" 1 .timedOut .timedOut "" "" 0).2.2.2.2.1 (by decide)
  · exact (c9_shell_command "false" 30 (.finished "" "" 1) .timedOut "" "" 1).2.2.2.2.2.1
      (by decide) (by decide)
  · exact (c9_shell_command "" 30 .timedOut .timedOut (String.mk (List.replicate 100001 'a'))
      "" 0).2.2.2.2.2.2.1 hlen
  · exact (c9_shell_command "" 30 .timedOut .timedOut ""
      (String.mk (List.replicate 100001 'b')) 0).2.2.2.2.2.2.2 hneb hlenb
